import Mathlib

/-!
# wwvsim: timecode, calendar and producer loop

A shallow embedding of the parts of `wwvsim.c` that build the WWV/WWVH time
code and advance the civil clock, with theorems about them.

Conventions of the embedding:

* C `int` values are `Int`; the values that occur (years, days of year, BCD
  digits, millisecond offsets) stay far away from the 32-bit limits, so no
  wrap-around is modelled.  C `/` and `%` on `int` truncate towards zero and
  are `Int.tdiv` and `Int.tmod`.
* The `uint8_t code[61]` array is a `List Nat`; a pointer `code + k` is the
  pair of the list and the offset `k`.
* `makeminute` is represented by the sequence of calls that write the audio
  buffer (`Call`).  The buffer itself is a function from sample index to
  sample; the sample values computed in floating point and the contents of
  announcements are parameters (`Synth`), not computed.
-/

namespace Wwvsim

/-! ## Calendar utilities -/

/-- `Days_in_month[]` (wwvsim.c:73): index 1 = January, 12 = December; applies
to non-leap years only. -/
def Days_in_month : List Int := [0, 31, 28, 31, 30, 31, 30, 31, 31, 30, 31, 30, 31]

/-- `is_leap_year` (wwvsim.c:404). -/
def is_leap_year (y : Int) : Bool :=
  if y.tmod 4 ≠ 0 then false
  else if y.tmod 100 ≠ 0 then true
  else if y.tmod 400 ≠ 0 then false
  else true

/-- The loop of `dst_start_doy` (wwvsim.c:649-653): `n` is the number of
iterations left, `ytmp` the loop variable and `r` the running day of year. -/
def dst_start_loop : Nat → Int → Int → Int
  | 0, _, r => r
  | n + 1, ytmp, r =>
    let r1 := r - (1 + (if is_leap_year ytmp then 1 else 0))
    let r2 := if r1 < 67 then r1 + 7 else r1
    dst_start_loop n (ytmp + 1) r2

/-- `dst_start_doy` (wwvsim.c:645): the loop runs for `ytmp = 2005 .. year-1`,
that is `year - 2005` times. -/
def dst_start_doy (year : Int) : Int :=
  if year ≥ 2007 then
    let r := dst_start_loop (year - 2005).toNat 2005 72
    if r = 67 ∧ is_leap_year year then r + 7 else r
  else -1

/-- `day_of_year` (wwvsim.c:660): the loop runs for `i = 1 .. month-1`.  An
index outside the table (not reached for `month ≤ 13`) reads as 0 here. -/
def day_of_year (year month day : Int) : Int :=
  (List.range' 1 (month - 1).toNat).foldl
    (fun doy i => if i = 2 ∧ is_leap_year year then doy + 29 else doy + Days_in_month.getD i 0)
    day

/-! ## BCD codec -/

/-- `encode` (wwvsim.c:606) applied to the pointer `code + off`: for `i = 0..3`,
`code[off+i] = x & 1; x >>= 1`.  The stored value is converted to `uint8_t`. -/
def encode (code : List Nat) (off : Nat) (x : Int) : List Nat :=
  ((List.range 4).foldl
    (fun (s : List Nat × Int) i => (s.1.set (off + i) ((Int.land s.2 1) % 256).toNat, s.2 >>> 1))
    (code, x)).1

/-- `decode` (wwvsim.c:612) applied to the pointer `code + off`: for
`i = 3..0`, `r <<= 1; assert(code[i] == 0 || code[i] == 1); r += code[i]`.
A failed assertion (or a read outside the list) gives `none`. -/
def decode (code : List Nat) (off : Nat) : Option Int :=
  [3, 2, 1, 0].foldlM
    (fun (r : Int) (i : Nat) =>
      match code[off + i]? with
      | some b => if b = 0 ∨ b = 1 then some (r * 2 + (b : Int)) else none
      | none => none)
    0

/-! ## Timecode builder and decoder -/

/-- `maketimecode` (wwvsim.c:676).  The array is cleared first, so the result
does not depend on what the caller's buffer held. -/
def maketimecode (dut1 : Int) (leap_pending : Bool) (year month day hour minute : Int) :
    List Nat :=
  let code : List Nat := List.replicate 61 0
  let doy := day_of_year year month day
  let dst_start := dst_start_doy year
  let code :=
    if dst_start ≥ 1 then
      let code := if doy > dst_start ∧ doy ≤ dst_start + 238 then code.set 2 1 else code
      if doy ≥ dst_start ∧ doy < dst_start + 238 then code.set 55 1 else code
    else code
  let code := code.set 3 (if leap_pending then 1 else 0)
  let code := encode code 4 (year.tmod 10)
  let code := encode code 51 ((year.tdiv 10).tmod 10)
  let code := encode code 10 (minute.tmod 10)
  let code := encode code 15 (minute.tdiv 10)
  let code := encode code 20 (hour.tmod 10)
  let code := encode code 25 (hour.tdiv 10)
  let code := encode code 30 (doy.tmod 10)
  let code := encode code 35 ((doy.tdiv 10).tmod 10)
  let code := encode code 40 (doy.tdiv 100)
  let code := code.set 50 (if dut1 ≥ 0 then 1 else 0)
  encode code 56 (Int.natAbs dut1)

/-- The four DST messages of `decode_timecode` (wwvsim.c:746-753). -/
inductive DstState where
  | in_effect
  | starts_today
  | ends_today
  | not_in_effect
  deriving DecidableEq, Repr

/-- The values `decode_timecode` prints after the grid. -/
structure Decoded where
  year_tens : Int
  year_ones : Int
  doy_hundreds : Int
  doy_tens : Int
  doy_ones : Int
  hour_tens : Int
  hour_ones : Int
  minute_tens : Int
  minute_ones : Int
  dut1 : Int
  leap_pending : Bool
  dst : DstState
  deriving DecidableEq, Repr

/-- The DST message chosen by `decode_timecode` (wwvsim.c:746-753) from the
truth values of `code[2]` and `code[55]`. -/
def dst_message (c2 c55 : Bool) : DstState :=
  if c2 && c55 then DstState.in_effect
  else if !c2 && c55 then DstState.starts_today
  else if c2 && !c55 then DstState.ends_today
  else DstState.not_in_effect

/-- `decode_timecode` (wwvsim.c:719), the part after the grid of bits: the
digits are decoded in the order of the source, a slot is true when non-zero. -/
def decode_timecode (code : List Nat) : Option Decoded :=
  (decode code 51).bind fun year_tens =>
  (decode code 4).bind fun year_ones =>
  (decode code 40).bind fun doy_hundreds =>
  (decode code 35).bind fun doy_tens =>
  (decode code 30).bind fun doy_ones =>
  (decode code 25).bind fun hour_tens =>
  (decode code 20).bind fun hour_ones =>
  (decode code 15).bind fun minute_tens =>
  (decode code 10).bind fun minute_ones =>
  (decode code 56).bind fun dut1 =>
  some {
    year_tens := year_tens
    year_ones := year_ones
    doy_hundreds := doy_hundreds
    doy_tens := doy_tens
    doy_ones := doy_ones
    hour_tens := hour_tens
    hour_ones := hour_ones
    minute_tens := minute_tens
    minute_ones := minute_ones
    dut1 := if code.getD 50 0 = 0 then -dut1 else dut1
    leap_pending := decide (code.getD 3 0 ≠ 0)
    dst := dst_message (decide (code.getD 2 0 ≠ 0)) (decide (code.getD 55 0 ≠ 0)) }

/-! ## Schedule tables and the minute assembler -/

/-- `WWV_tone_schedule[60]` (wwvsim.c:79). -/
def WWV_tone_schedule : List Int :=
  [  0, 600, 440,   0,   0, 600, 500, 600,   0,   0,
     0, 600, 500, 600, 500, 600,   0, 600,   0, 600,
   500, 600, 500, 600, 500, 600, 500, 600, 500,   0,
     0, 600, 500, 600, 500, 600, 500, 600, 500, 600,
   500, 600, 500,   0,   0,   0,   0,   0,   0,   0,
     0,   0, 500, 600, 500, 600, 500, 600, 500,   0]

/-- `WWVH_tone_schedule[60]` (wwvsim.c:88). -/
def WWVH_tone_schedule : List Int :=
  [  0, 440, 600,   0,   0, 500, 600,   0,   0,   0,
     0,   0, 600, 500,   0,   0,   0,   0,   0,   0,
   600, 500, 600, 500, 600, 500, 600, 500, 600,   0,
     0, 500, 600, 500, 600, 500, 600, 500, 600, 500,
   600, 500, 600, 500, 600,   0, 600,   0,   0,   0,
     0,   0,   0, 500, 600, 500, 600, 500, 600,   0]

/-- The amplitude constants of `gen_tone_or_announcement` and `makeminute`
(wwvsim.c:760, 798-804), kept symbolic. -/
inductive Amp where
  | tone_amp
  | marker_high_amp
  | marker_low_amp
  | tick_amp
  deriving DecidableEq, Repr

/-- One call that writes into the minute's audio buffer, with its arguments
(times in milliseconds, frequencies in Hz). -/
inductive Call where
  | add_tone (startms stopms freq : Int) (amp : Amp)
  | overlay_tone (startms stopms freq : Int) (amp : Amp)
  | overlay_silence (startms stopms : Int)
  | announce_audio_file (startms : Int)
  | announce_text_file (startms : Int) (female : Bool)
  | announce_text (startms : Int) (female : Bool)
  deriving DecidableEq, Repr

/-- The process-wide settings fixed by the command line (wwvsim.c:62-69, 144). -/
structure Config where
  Samprate : Int
  WWVH : Bool
  Verbose : Bool
  NoTone : Bool
  NoVoice : Bool
  NoTimeCode : Bool
  manual_time : Bool
  deriving DecidableEq, Repr

/-- What one iteration of the producer observes of the outside world: whether
the minute's `.raw` and `.txt` announcement files are readable
(wwvsim.c:767, 771) and the wall clock read at wwvsim.c:334-335. -/
structure World where
  raw_readable : Bool
  text_readable : Bool
  tm_min : Int
  tm_sec : Int
  tv_usec : Int
  deriving DecidableEq, Repr

/-- `gen_tone_or_announcement` (wwvsim.c:759), as the calls it issues.  A
minute outside the table reads as 0 here. -/
def gen_tone_or_announcement (cfg : Config) (w : World) (wwvh : Bool) (hour minute : Int) :
    List Call :=
  if !cfg.NoVoice && w.raw_readable then [Call.announce_audio_file 1000]
  else if !cfg.NoVoice && w.text_readable then [Call.announce_text_file 1000 wwvh]
  else if !cfg.NoTone then
    let tone := if wwvh then WWVH_tone_schedule.getD minute.toNat 0
                else WWV_tone_schedule.getD minute.toNat 0
    let tone := if tone = 440 ∧ hour = 0 then 0 else tone
    if tone ≠ 0 then [Call.add_tone 1000 45000 tone Amp.tone_amp] else []
  else []

/-- The body of the subcarrier loop of `makeminute` (wwvsim.c:838-847) for
second `s`. -/
def subcarrier_second (code : List Nat) (s : Int) : List Call :=
  if s.tmod 10 = 9 then
    [Call.add_tone (s * 1000) (s * 1000 + 800) 100 Amp.marker_high_amp,
     Call.add_tone (s * 1000 + 800) (s * 1000 + 1000) 100 Amp.marker_low_amp]
  else if code.getD s.toNat 0 ≠ 0 then
    [Call.add_tone (s * 1000) (s * 1000 + 500) 100 Amp.marker_high_amp,
     Call.add_tone (s * 1000 + 500) (s * 1000 + 1000) 100 Amp.marker_low_amp]
  else
    [Call.add_tone (s * 1000) (s * 1000 + 200) 100 Amp.marker_high_amp,
     Call.add_tone (s * 1000 + 200) (s * 1000 + 1000) 100 Amp.marker_low_amp]

/-- The body of the tick loop of `makeminute` (wwvsim.c:856-866) for second
`s`. -/
def tick_second (tickfreq dut1 s : Int) : List Call :=
  (if s ≠ 29 ∧ s < 59 then
    [Call.overlay_silence (1000 * s - 10) (1000 * s + 30),
     Call.overlay_tone (1000 * s) (1000 * s + 5) tickfreq Amp.tick_amp]
   else []) ++
  (if (dut1 > 0 ∧ s ≥ 1 ∧ s ≤ dut1) ∨ (-dut1 > 0 ∧ s ≥ 9 ∧ s ≤ 8 - dut1) then
    [Call.overlay_tone (1000 * s + 100) (1000 * s + 105) tickfreq Amp.tick_amp]
   else [])

/-- The seconds `s = 1 .. length-1` visited by the two loops of `makeminute`
(wwvsim.c:837, 855). -/
def loop_seconds (length : Int) : List Int :=
  (List.range' 1 (length - 1).toNat).map Int.ofNat

/-- `makeminute` (wwvsim.c:795), as the calls it issues in order after the
buffer is cleared; `code = none` is the `NULL` pointer. -/
def makeminute (cfg : Config) (w : World) (length : Int) (wwvh : Bool)
    (code : Option (List Nat)) (dut1 hour minute : Int) : List Call :=
  let tickfreq : Int := if wwvh then 1200 else 1000
  let hourbeep : Int := 1500
  gen_tone_or_announcement cfg w wwvh hour minute ++
  (if !cfg.NoVoice then
    (if !wwvh then [Call.announce_text 52500 false] else [Call.announce_text 45000 true])
   else []) ++
  (match code with
   | some code => (loop_seconds length).flatMap (subcarrier_second code)
   | none => []) ++
  [Call.overlay_tone 0 800 (if minute = 0 then hourbeep else tickfreq) Amp.tick_amp,
   Call.overlay_silence 800 1000] ++
  (loop_seconds length).flatMap (tick_second tickfreq dut1)

/-! ## Producer loop -/

/-- The variables of `main` that the producer loop carries from one minute to
the next (wwvsim.c:143-156, 293) together with the two leap flags
(wwvsim.c:65-66).  `sec` is written but never read and is left out. -/
structure Producer where
  year : Int
  month : Int
  day : Int
  hour : Int
  minute : Int
  dut1 : Int
  Positive_leap_second_pending : Bool
  Negative_leap_second_pending : Bool
  startup : Bool
  deriving DecidableEq, Repr

/-- The queue entry built for one minute (wwvsim.c:97): sample count, starting
offset and the buffer, given by the calls that wrote it. -/
structure QEntry where
  length : Int
  offset : Int
  buffer : List Call
  deriving DecidableEq, Repr

/-- The start-up validation of `main` (wwvsim.c:275-290) on the command-line
values of `dut1` and of the positive and negative leap flags. -/
def startup_validation (dut1 : Int) (positive negative : Bool) : Int × Bool × Bool :=
  let (positive, negative) := if positive && negative then (false, false) else (positive, negative)
  let dut1 := if dut1 > 7 ∨ dut1 < -7 then 0 else dut1
  if positive ∧ dut1 > -3 then (dut1, false, negative)
  else if negative ∧ dut1 < 3 then (dut1, positive, false)
  else (dut1, positive, negative)

/-- The producer state on entry to the loop, after the start-up validation. -/
def initial_state (year month day hour minute dut1 : Int) (positive negative : Bool) :
    Producer :=
  let v := startup_validation dut1 positive negative
  { year := year, month := month, day := day, hour := hour, minute := minute,
    dut1 := v.1, Positive_leap_second_pending := v.2.1,
    Negative_leap_second_pending := v.2.2, startup := true }

/-- The length in seconds of the minute about to be built (wwvsim.c:298-305). -/
def minute_length (st : Producer) : Int :=
  if (st.month = 6 ∨ st.month = 12) ∧ st.hour = 23 ∧ st.minute = 59 then
    if st.Positive_leap_second_pending then 61
    else if st.Negative_leap_second_pending then 59
    else 60
  else 60

/-- The audio buffer of the minute (wwvsim.c:313-326): the timecode is built
unless suppressed and the minute is assembled.  The verbose dump only prints. -/
def build_buffer (cfg : Config) (w : World) (st : Producer) (length : Int) : List Call :=
  let code :=
    if cfg.NoTimeCode then none
    else some (maketimecode st.dut1
      (st.Positive_leap_second_pending || st.Negative_leap_second_pending)
      st.year st.month st.day st.hour st.minute)
  makeminute cfg w length cfg.WWVH code st.dut1 st.hour st.minute

/-- The leap-second bookkeeping at `next_minute:` (wwvsim.c:372-379). -/
def leap_update (length : Int) (st : Producer) : Producer :=
  if length = 61 then
    { st with Positive_leap_second_pending := false, dut1 := st.dut1 + 10 }
  else if length = 59 then
    { st with Negative_leap_second_pending := false, dut1 := st.dut1 - 10 }
  else st

/-- The advance to the next minute (wwvsim.c:381-398).  A month outside the
table `Days_in_month` reads as 0 here. -/
def advance (st : Producer) : Producer :=
  let minute := st.minute + 1
  if minute > 59 then
    let hour := st.hour + 1
    if hour > 23 then
      let day := st.day + 1
      if day > (if st.month = 2 ∧ is_leap_year st.year then 29
                else Days_in_month.getD st.month.toNat 0) then
        let month := st.month + 1
        if month > 12 then
          { st with minute := 0, hour := 0, day := 1, month := 1, year := st.year + 1 }
        else { st with minute := 0, hour := 0, day := 1, month := month }
      else { st with minute := 0, hour := 0, day := day }
    else { st with minute := 0, hour := hour }
  else { st with minute := minute }

/-- The result of one pass through the loop body: the entry appended to the
queue (`none` when the first minute is discarded) and the state for the next
pass. -/
structure Step where
  entry : Option QEntry
  next : Producer
  deriving DecidableEq, Repr

/-- The queue entry and buffer built for the minute (wwvsim.c:307-326), before
the starting offset is set. -/
def queue_entry (cfg : Config) (w : World) (st : Producer) : QEntry :=
  { length := minute_length st * cfg.Samprate, offset := 0,
    buffer := build_buffer cfg w st (minute_length st) }

/-- One pass through the body of the producer loop (wwvsim.c:297-399).  The
result is `none` when the assertion on the starting offset (wwvsim.c:347)
fails.  Waiting for the queue to drain does not change the state. -/
def iteration (cfg : Config) (w : World) (st : Producer) : Option Step :=
  let length := minute_length st
  let qe := queue_entry cfg w st
  let next := advance (leap_update length st)
  if !cfg.manual_time && st.startup then
    if st.minute ≠ w.tm_min then
      some { entry := none, next := next }
    else
      let offset := (cfg.Samprate * (1000000 * w.tm_sec + w.tv_usec)).tdiv 1000000
      if offset < cfg.Samprate * 60 then
        some { entry := some { qe with offset := offset }, next := { next with startup := false } }
      else none
  else some { entry := some qe, next := next }

/-- The producer loop run over the successive observations of the world. -/
def run (cfg : Config) : List World → Producer → Option Producer
  | [], st => some st
  | w :: ws, st =>
    match iteration cfg w st with
    | some r => run cfg ws r.next
    | none => none

/-! ## Reference definitions: the Gregorian calendar

These definitions do not come from the source.  They state what the calendar
is, independently of the loops of the program, so that the program can be
compared with it. -/

/-- Reference leap-year rule: divisible by 4 and (not by 100, or by 400). -/
def gregorian_leap (y : Int) : Bool :=
  decide (y % 4 = 0 ∧ (y % 100 ≠ 0 ∨ y % 400 = 0))

/-- Reference length of month `m` of year `y`. -/
def gregorian_month_length (y m : Int) : Int :=
  if m = 2 then (if gregorian_leap y then 29 else 28)
  else if m = 4 ∨ m = 6 ∨ m = 9 ∨ m = 11 then 30
  else 31

/-- Reference: the number of days of the proleptic Gregorian calendar before
1 January of year `y`, counted from 1 January of year 1. -/
def days_before_year (y : Int) : Int :=
  365 * (y - 1) + (y - 1) / 4 - (y - 1) / 100 + (y - 1) / 400

/-- Reference: the number of days of a common year before the first day of
each month (index 1 = January). -/
def days_before_month : List Int :=
  [0, 0, 31, 59, 90, 120, 151, 181, 212, 243, 273, 304, 334]

/-- Reference day number of the date `y-m-d`: 1 is Monday 1 January of year 1,
so a multiple of 7 is a Sunday. -/
def day_number (y m d : Int) : Int :=
  days_before_year y + days_before_month.getD m.toNat 0 +
    (if gregorian_leap y ∧ m > 2 then 1 else 0) + d

/-- Reference: `y-m-d` is a Sunday. -/
def is_sunday (y m d : Int) : Prop := day_number y m d % 7 = 0

instance (y m d : Int) : Decidable (is_sunday y m d) := by
  unfold is_sunday; infer_instance

/-- Reference: day `doy` of year `y` is the second Sunday of March, that is
the day of year of `y`-03-`d` for the one `d` in 8..14 that is a Sunday. -/
def second_sunday_of_march (y doy : Int) : Prop :=
  ∃ d : Int, 8 ≤ d ∧ d ≤ 14 ∧ is_sunday y 3 d ∧ doy = day_of_year y 3 d ∧
    ∀ e : Int, 8 ≤ e → e ≤ 14 → is_sunday y 3 e → e = d

/-- Reference: `y-m-d` is a date of the Gregorian calendar. -/
def valid_date (y m d : Int) : Prop :=
  1 ≤ m ∧ m ≤ 12 ∧ 1 ≤ d ∧ d ≤ gregorian_month_length y m

instance (y m d : Int) : Decidable (valid_date y m d) := by
  unfold valid_date; infer_instance

/-- Reference: the civil time held by a producer state is valid. -/
def valid_civil_time (st : Producer) : Prop :=
  valid_date st.year st.month st.day ∧ 0 ≤ st.hour ∧ st.hour ≤ 23 ∧
    0 ≤ st.minute ∧ st.minute ≤ 59

instance (st : Producer) : Decidable (valid_civil_time st) := by
  unfold valid_civil_time; infer_instance

/-- Reference: the number of the minute held by a producer state, counted
along the Gregorian calendar (60 minutes an hour, 24 hours a day). -/
def minute_number (st : Producer) : Int :=
  (day_number st.year st.month st.day * 24 + st.hour) * 60 + st.minute

/-- Reference: the civil time one minute later, in the words of the
specification: minute+1, carrying into the hour at 60, into the day at 24
hours, into the month after the last day of the month and into the year after
December. -/
def next_minute_spec (st : Producer) : Producer :=
  if st.minute + 1 < 60 then { st with minute := st.minute + 1 }
  else if st.hour + 1 < 24 then { st with minute := 0, hour := st.hour + 1 }
  else if st.day + 1 ≤ gregorian_month_length st.year st.month then
    { st with minute := 0, hour := 0, day := st.day + 1 }
  else if st.month + 1 ≤ 12 then
    { st with minute := 0, hour := 0, day := 1, month := st.month + 1 }
  else { st with minute := 0, hour := 0, day := 1, month := 1, year := st.year + 1 }

/-! ## Auxiliary definitions used by the proofs -/

/-- The value `encode` stores for one bit: `x & 1` converted to `uint8_t`. -/
def low_bit (x : Int) : Nat := (Int.land x 1 % 256).toNat

/-- The value `maketimecode` leaves in slot 2 (wwvsim.c:682-685). -/
def dst_slot_2 (year month day : Int) : Nat :=
  if dst_start_doy year ≥ 1 ∧ (day_of_year year month day > dst_start_doy year ∧
      day_of_year year month day ≤ dst_start_doy year + 238) then 1 else 0

/-- The value `maketimecode` leaves in slot 55 (wwvsim.c:682, 686-687). -/
def dst_slot_55 (year month day : Int) : Nat :=
  if dst_start_doy year ≥ 1 ∧ (day_of_year year month day ≥ dst_start_doy year ∧
      day_of_year year month day < dst_start_doy year + 238) then 1 else 0

/-- The 61 slots of a time code written out, from the values stored in slots
2, 55, 3 and 50 and the ten digits handed to `encode`. -/
def timecode_layout (c2 c55 lp sign : Nat) (y0 y1 m0 m1 h0 h1 d0 d1 d2 u : Int) : List Nat :=
    [0, 0, c2, lp,
     low_bit y0, low_bit (y0 >>> 1), low_bit (y0 >>> 1 >>> 1), low_bit (y0 >>> 1 >>> 1 >>> 1),
     0, 0, low_bit m0, low_bit (m0 >>> 1),
     low_bit (m0 >>> 1 >>> 1), low_bit (m0 >>> 1 >>> 1 >>> 1), 0, low_bit m1,
     low_bit (m1 >>> 1), low_bit (m1 >>> 1 >>> 1), low_bit (m1 >>> 1 >>> 1 >>> 1), 0,
     low_bit h0, low_bit (h0 >>> 1), low_bit (h0 >>> 1 >>> 1), low_bit (h0 >>> 1 >>> 1 >>> 1),
     0, low_bit h1, low_bit (h1 >>> 1), low_bit (h1 >>> 1 >>> 1),
     low_bit (h1 >>> 1 >>> 1 >>> 1), 0, low_bit d0, low_bit (d0 >>> 1),
     low_bit (d0 >>> 1 >>> 1), low_bit (d0 >>> 1 >>> 1 >>> 1), 0, low_bit d1,
     low_bit (d1 >>> 1), low_bit (d1 >>> 1 >>> 1), low_bit (d1 >>> 1 >>> 1 >>> 1), 0,
     low_bit d2, low_bit (d2 >>> 1), low_bit (d2 >>> 1 >>> 1), low_bit (d2 >>> 1 >>> 1 >>> 1),
     0, 0, 0, 0,
     0, 0, sign, low_bit y1,
     low_bit (y1 >>> 1), low_bit (y1 >>> 1 >>> 1), low_bit (y1 >>> 1 >>> 1 >>> 1), c55,
     low_bit u, low_bit (u >>> 1), low_bit (u >>> 1 >>> 1), low_bit (u >>> 1 >>> 1 >>> 1),
     0]

/-- A call is part of the 100 Hz subcarrier pulse of second `k`: an `add_tone`
at 100 Hz that starts within the second. -/
def is_subcarrier_of_second (k : Int) : Call → Bool
  | Call.add_tone startms _ freq _ =>
    decide (freq = 100 ∧ k * 1000 ≤ startms ∧ startms < k * 1000 + 1000)
  | _ => false

/-- The 100 Hz subcarrier pulse of second `k` among the calls of a minute, in
the order of the calls. -/
def subcarrier_pulse (calls : List Call) (k : Int) : List Call :=
  calls.filter (is_subcarrier_of_second k)

/-- The slots `i .. i+n-1` of a time code, in ascending order. -/
def slots (code : List Nat) (i n : Nat) : List Nat := (code.drop i).take n

/-- What the end-of-iteration update has to do, from the state `st` in which
the minute was built to the state `next` of the following pass. -/
def leap_bookkeeping (st next : Producer) : Prop :=
  (minute_length st = 61 →
    next.Positive_leap_second_pending = false ∧ next.dut1 = st.dut1 + 10) ∧
  (minute_length st = 59 →
    next.Negative_leap_second_pending = false ∧ next.dut1 = st.dut1 - 10) ∧
  (minute_length st = 60 →
    next.dut1 = st.dut1 ∧
    next.Positive_leap_second_pending = st.Positive_leap_second_pending ∧
    next.Negative_leap_second_pending = st.Negative_leap_second_pending)

instance (st next : Producer) : Decidable (leap_bookkeeping st next) := by
  unfold leap_bookkeeping; infer_instance

/-- The first minute is discarded (wwvsim.c:328, 336): start-up, time not set
by hand, and the wall clock is already in another minute. -/
def discards_first_minute (cfg : Config) (w : World) (st : Producer) : Prop :=
  cfg.manual_time = false ∧ st.startup = true ∧ st.minute ≠ w.tm_min

instance (cfg : Config) (w : World) (st : Producer) :
    Decidable (discards_first_minute cfg w st) := by
  unfold discards_first_minute; infer_instance

/-- The minute is appended to the queue: either this is not the start-up pass
with the clock as time source, or the wall clock is still in the minute built
and the assertion on the starting offset (wwvsim.c:347) holds. -/
def enqueues_minute (cfg : Config) (w : World) (st : Producer) : Prop :=
  (cfg.manual_time = true ∨ st.startup = false) ∨
  (st.minute = w.tm_min ∧
    (cfg.Samprate * (1000000 * w.tm_sec + w.tv_usec)).tdiv 1000000 < cfg.Samprate * 60)

instance (cfg : Config) (w : World) (st : Producer) :
    Decidable (enqueues_minute cfg w st) := by
  unfold enqueues_minute; infer_instance

/-- The invariant of the producer loop: dut1 within ±7, a pending positive
leap second only with dut1 ≤ -3 and a pending negative one only with
dut1 ≥ 3. -/
def leap_invariant (st : Producer) : Prop :=
  -7 ≤ st.dut1 ∧ st.dut1 ≤ 7 ∧
  (st.Positive_leap_second_pending = true → st.dut1 ≤ -3) ∧
  (st.Negative_leap_second_pending = true → 3 ≤ st.dut1)

instance (st : Producer) : Decidable (leap_invariant st) := by
  unfold leap_invariant; infer_instance

/-- A configuration used in the examples: the time comes from the wall clock. -/
def clock_config : Config :=
  { Samprate := 48000, WWVH := false, Verbose := false, NoTone := false, NoVoice := false,
    NoTimeCode := false, manual_time := false }

/-- A configuration used in the examples: WWV at 48000 samples per second with
the time set by hand. -/
def example_config : Config :=
  { Samprate := 48000, WWVH := false, Verbose := false, NoTone := false, NoVoice := false,
    NoTimeCode := false, manual_time := true }

/-- A world used in the examples: no announcement files, wall clock at 0. -/
def example_world : World :=
  { raw_readable := false, text_readable := false, tm_min := 0, tm_sec := 0, tv_usec := 0 }

/-! ## Tone mixer -/

/-- What the embedding does not compute: the number of samples per
millisecond (the global `Samprate_ms`), the sample values that the
floating-point phasor of `overlay_tone` and `add_tone` produces, and what the
announcement calls read from files and from the speech synthesizer. -/
structure Synth where
  Samprate_ms : Int
  tone_sample : Int → Amp → Int → Int
  mixed_sample : Int → Int → Amp → Int → Int
  announcement : Call → (Int → Int) → (Int → Int)

/-- The audio buffer `int16_t *output`: the sample at each index.  The samples
of the minute are those at indices `0 .. length*Samprate - 1`. -/
def Buffer : Type := Int → Int

/-- The range check shared by `overlay_tone`, `add_tone` and `overlay_silence`
(wwvsim.c:554, 574, 595): true when the call returns -1 without writing. -/
def range_check_fails (startms stopms : Int) : Bool :=
  decide (startms < 0 ∨ stopms ≤ startms ∨ stopms > 61000)

/-- The samples a tone mixer call writes once past its range check: the
`(stopms - startms) * Samprate_ms` samples from `startms * Samprate_ms`. -/
def in_span (sy : Synth) (startms stopms i : Int) : Prop :=
  startms * sy.Samprate_ms ≤ i ∧
    i < startms * sy.Samprate_ms + (stopms - startms) * sy.Samprate_ms

instance (sy : Synth) (startms stopms i : Int) : Decidable (in_span sy startms stopms i) := by
  unfold in_span; infer_instance

/-- `overlay_tone` (wwvsim.c:553): the return value and the buffer, or `none`
when the assertion on the zero crossing fails.  Sample `n` of the tone is
`tone_sample freq amp n`. -/
def overlay_tone (sy : Synth) (output : Buffer) (startms stopms freq : Int) (amp : Amp) :
    Option (Int × Buffer) :=
  if range_check_fails startms stopms then some (-1, output)
  else if (startms * freq).tmod 1000 ≠ 0 then none
  else some (0, fun i =>
    if in_span sy startms stopms i then sy.tone_sample freq amp (i - startms * sy.Samprate_ms)
    else output i)

/-- `add_tone` (wwvsim.c:573): as `overlay_tone`, the tone being added to the
sample already there and clipped (`mixed_sample old freq amp n`). -/
def add_tone (sy : Synth) (output : Buffer) (startms stopms freq : Int) (amp : Amp) :
    Option (Int × Buffer) :=
  if range_check_fails startms stopms then some (-1, output)
  else if (startms * freq).tmod 1000 ≠ 0 then none
  else some (0, fun i =>
    if in_span sy startms stopms i then
      sy.mixed_sample (output i) freq amp (i - startms * sy.Samprate_ms)
    else output i)

/-- `overlay_silence` (wwvsim.c:594): the return value and the buffer. -/
def overlay_silence (sy : Synth) (output : Buffer) (startms stopms : Int) : Int × Buffer :=
  if range_check_fails startms stopms then (-1, output)
  else (0, fun i => if in_span sy startms stopms i then 0 else output i)

/-- The effect of one call of `makeminute` on the buffer, with the value the
call returns (`makeminute` ignores it); `none` when an assertion fails.  The
value returned by an announcement is not modelled and given as 0. -/
def apply_call (sy : Synth) (output : Buffer) : Call → Option (Int × Buffer)
  | Call.add_tone startms stopms freq amp => add_tone sy output startms stopms freq amp
  | Call.overlay_tone startms stopms freq amp => overlay_tone sy output startms stopms freq amp
  | Call.overlay_silence startms stopms => some (overlay_silence sy output startms stopms)
  | c => some (0, sy.announcement c output)

/-- The buffer after a sequence of calls, `none` when an assertion fails. -/
def render (sy : Synth) : List Call → Buffer → Option Buffer
  | [], output => some output
  | c :: cs, output =>
    match apply_call sy output c with
    | some r => render sy cs r.2
    | none => none

/-- The finished buffer of `makeminute` (wwvsim.c:795): the buffer is cleared
(wwvsim.c:810) and the calls are made in order. -/
def finished_buffer (sy : Synth) (cfg : Config) (w : World) (length : Int) (wwvh : Bool)
    (code : Option (List Nat)) (dut1 hour minute : Int) : Option Buffer :=
  render sy (makeminute cfg w length wwvh code dut1 hour minute) (fun _ => 0)

/-! ## Reference definitions: day of year, schedule tables -/

/-- Reference: the number of days of year `y`. -/
def gregorian_year_length (y : Int) : Int := if gregorian_leap y then 366 else 365

/-- Reference: the sum of the lengths of the months `1 .. m-1` of year `y`. -/
def months_before (y m : Int) : Int :=
  ((List.range' 1 (m - 1).toNat).map (fun i => gregorian_month_length y (Int.ofNat i))).sum

/-- Reference: the search for the month that holds day `n` of the year,
starting from month `m` with `k` months left to try. -/
def date_of_day_loop (y : Int) : Nat → Int → Int → Int × Int
  | 0, m, n => (m, n)
  | k + 1, m, n =>
    if n ≤ gregorian_month_length y m then (m, n)
    else date_of_day_loop y k (m + 1) (n - gregorian_month_length y m)

/-- Reference: the date (month, day) that is day `n` of year `y`. -/
def date_of_day (y n : Int) : Int × Int := date_of_day_loop y 11 1 n

/-- Reference: the WWV schedule table as section 6 of the specification lists
it (minute of the hour to Hz, 0 = silent), for comparison with the table of
the source. -/
def spec_WWV_schedule : List Int :=
  [0, 600, 440, 0, 0, 600, 500, 600, 0, 0,
   0, 600, 500, 600, 500, 600, 0, 600, 0, 600,
   500, 600, 500, 600, 500, 600, 500, 600, 500, 0,
   0, 600, 500, 600, 500, 600, 500, 600, 500, 600,
   500, 600, 500, 0, 0, 0, 0, 0, 0, 0,
   0, 0, 500, 600, 500, 600, 500, 600, 500, 0]

/-- Reference: the WWVH schedule table as section 6 of the specification
lists it (minute of the hour to Hz, 0 = silent), for comparison with the table
of the source. -/
def spec_WWVH_schedule : List Int :=
  [0, 440, 600, 0, 0, 500, 600, 0, 0, 0,
   0, 0, 600, 500, 0, 0, 0, 0, 0, 0,
   600, 500, 600, 500, 600, 500, 600, 500, 600, 0,
   0, 500, 600, 500, 600, 500, 600, 500, 600, 500,
   600, 500, 600, 500, 600, 0, 600, 0, 0, 0,
   0, 0, 0, 500, 600, 500, 600, 500, 600, 0]

/-! ## Auxiliary definitions for the minute assembler -/

/-- The checks of the claim on one tone mixer call of a minute of `length`
seconds: the range check passes, the zero-crossing assertion holds, and the
call stops within the minute.  Announcement calls are not constrained. -/
def call_checks (length : Int) : Call → Prop
  | Call.add_tone startms stopms freq _ =>
    range_check_fails startms stopms = false ∧ (startms * freq).tmod 1000 = 0 ∧
      stopms ≤ length * 1000
  | Call.overlay_tone startms stopms freq _ =>
    range_check_fails startms stopms = false ∧ (startms * freq).tmod 1000 = 0 ∧
      stopms ≤ length * 1000
  | Call.overlay_silence startms stopms =>
    range_check_fails startms stopms = false ∧ stopms ≤ length * 1000
  | _ => True

/-- The call is one of the three tone mixer calls. -/
def is_mixer_call : Call → Bool
  | Call.add_tone _ _ _ _ => true
  | Call.overlay_tone _ _ _ _ => true
  | Call.overlay_silence _ _ => true
  | _ => false

/-- The tone mixer call writes sample `i`. -/
def writes (sy : Synth) (i : Int) : Call → Prop
  | Call.add_tone startms stopms _ _ =>
    range_check_fails startms stopms = false ∧ in_span sy startms stopms i
  | Call.overlay_tone startms stopms _ _ =>
    range_check_fails startms stopms = false ∧ in_span sy startms stopms i
  | Call.overlay_silence startms stopms =>
    range_check_fails startms stopms = false ∧ in_span sy startms stopms i
  | _ => True

/-- Second `s` of a minute of `length` seconds gets a tick and its guard
silence (wwvsim.c:855-856). -/
def is_tick_second (length s : Int) : Prop := 1 ≤ s ∧ s < length ∧ s ≠ 29 ∧ s ≤ 58

instance (length s : Int) : Decidable (is_tick_second length s) := by
  unfold is_tick_second; infer_instance

/-- Sample `i` lies in the guard interval of second `s` outside the tick: in
[s*1000-10, s*1000) ms or in [s*1000+5, s*1000+30) ms. -/
def in_guard (sy : Synth) (s i : Int) : Prop :=
  ((s * 1000 - 10) * sy.Samprate_ms ≤ i ∧ i < s * 1000 * sy.Samprate_ms) ∨
  ((s * 1000 + 5) * sy.Samprate_ms ≤ i ∧ i < (s * 1000 + 30) * sy.Samprate_ms)

instance (sy : Synth) (s i : Int) : Decidable (in_guard sy s i) := by
  unfold in_guard; infer_instance

/-- The second whose extra tick at s*1000+100 ms the call writes, if the call
is such a tick: an `overlay_tone` of 5 ms that starts 100 ms after a second. -/
def double_tick_of : Call → Option Int
  | Call.overlay_tone startms stopms _ _ =>
    if (startms - 100) % 1000 = 0 ∧ stopms = startms + 5 then some ((startms - 100) / 1000)
    else none
  | _ => none

/-- The seconds at which a list of calls writes the extra tick at
s*1000+100 ms, in the order of the calls. -/
def double_tick_seconds (calls : List Call) : List Int :=
  calls.filterMap double_tick_of

/-- Sample `i` lies in the 5 ms tick of second `s`: in [s*1000, s*1000+5)
ms. -/
def in_tick (sy : Synth) (s i : Int) : Prop :=
  s * 1000 * sy.Samprate_ms ≤ i ∧ i < (s * 1000 + 5) * sy.Samprate_ms

instance (sy : Synth) (s i : Int) : Decidable (in_tick sy s i) := by
  unfold in_tick; infer_instance

/-- A synthesizer used in the examples: 48 samples per millisecond; sample `n`
of an overlaid tone is `freq + n`, a tone added at a non-zero amplitude raises
the sample by `freq`, and announcements write nothing. -/
def example_synth : Synth :=
  { Samprate_ms := 48, tone_sample := fun freq _ n => freq + n,
    mixed_sample := fun old freq amp _ => if amp = Amp.marker_low_amp then old else old + freq,
    announcement := fun _ b => b }

/-- Reference: the number of days of year `y` before the first day of month
`m`. -/
def days_before (y m : Int) : Int :=
  days_before_month.getD m.toNat 0 + (if gregorian_leap y ∧ m > 2 then 1 else 0)

/-! ## Helper lemmas -/

set_option maxRecDepth 100000

/-- The reference calendar agrees with known dates: 13 March 2005, 11 March
2007 and 12 March 2023 were Sundays, 1 January 2000 a Saturday, 1 January
1970 and 29 February 2024 Thursdays, and 1 March 2100 is a Monday. -/
theorem reference_calendar_checks :
    is_sunday 2005 3 13 ∧ is_sunday 2007 3 11 ∧ is_sunday 2023 3 12 ∧
    day_number 2000 1 1 % 7 = 6 ∧ day_number 1970 1 1 % 7 = 4 ∧
    day_number 2024 2 29 % 7 = 4 ∧ day_number 2100 3 1 % 7 = 1 ∧
    day_number 2024 3 1 = day_number 2024 2 29 + 1 ∧
    day_number 2100 3 1 = day_number 2100 2 28 + 1 := by
  decide

theorem tmod_eq_zero_iff (y k : Int) : y.tmod k = 0 ↔ y % k = 0 := by
  constructor
  · intro h
    exact Int.emod_eq_zero_of_dvd (Int.dvd_of_tmod_eq_zero h)
  · intro h
    exact Int.tmod_eq_zero_of_dvd (Int.dvd_of_emod_eq_zero h)

theorem is_leap_year_eq (y : Int) : is_leap_year y = gregorian_leap y := by
  unfold is_leap_year gregorian_leap
  simp only [ne_eq, tmod_eq_zero_iff]
  by_cases h4 : y % 4 = 0 <;> by_cases h100 : y % 100 = 0 <;> by_cases h400 : y % 400 = 0 <;>
    simp [h4, h100, h400]

theorem days_before_year_succ (y : Int) :
    days_before_year (y + 1) = days_before_year y + 365 + (if gregorian_leap y then 1 else 0) := by
  unfold days_before_year gregorian_leap
  by_cases h4 : y % 4 = 0 <;> by_cases h100 : y % 100 = 0 <;> by_cases h400 : y % 400 = 0 <;>
    simp [h4, h100, h400] <;> omega

theorem dst_start_loop_inv (n : Nat) : ∀ (ytmp r : Int), 67 ≤ r → r ≤ 73 →
    (days_before_year ytmp + r) % 7 = 0 →
    67 ≤ dst_start_loop n ytmp r ∧ dst_start_loop n ytmp r ≤ 73 ∧
      (days_before_year (ytmp + n) + dst_start_loop n ytmp r) % 7 = 0 := by
  induction n with
  | zero =>
    intro ytmp r h1 h2 h3
    refine ⟨h1, h2, ?_⟩
    simpa [dst_start_loop] using h3
  | succ n ih =>
    intro ytmp r h1 h2 h3
    have hs := days_before_year_succ ytmp
    have hcast : ytmp + ((n + 1 : Nat) : Int) = (ytmp + 1) + (n : Int) := by push_cast; ring
    rw [hcast]
    simp only [dst_start_loop, is_leap_year_eq]
    apply ih
    · split_ifs <;> omega
    · split_ifs <;> omega
    · rw [hs]; split_ifs <;> omega

theorem day_of_year_march (y d : Int) :
    day_of_year y 3 d = d + 59 + (if gregorian_leap y then 1 else 0) := by
  simp only [day_of_year, is_leap_year_eq]
  have h : ((3 : Int) - 1).toNat = 2 := by decide
  rw [h]
  simp [List.range', Days_in_month]
  split_ifs <;> omega

theorem dst_start_doy_inv (y : Int) (hy : 2007 ≤ y) :
    (days_before_year y + dst_start_doy y) % 7 = 0 ∧
      67 + (if gregorian_leap y then 1 else 0) ≤ dst_start_doy y ∧
      dst_start_doy y ≤ 73 + (if gregorian_leap y then 1 else 0) := by
  have h0 : (days_before_year 2005 + 72) % 7 = 0 := by decide
  have hinv := dst_start_loop_inv (y - 2005).toNat 2005 72 (by decide) (by decide) h0
  have hc : (2005 : Int) + ((y - 2005).toNat : Int) = y := by
    rw [Int.toNat_of_nonneg (by omega)]; ring
  rw [hc] at hinv
  obtain ⟨h1, h2, h3⟩ := hinv
  simp only [dst_start_doy, ge_iff_le, hy, if_true, is_leap_year_eq]
  split_ifs <;> simp_all <;> omega

theorem encode_eq (code : List Nat) (off : Nat) (x : Int) :
    encode code off x =
      (((code.set off (low_bit x)).set (off + 1) (low_bit (x >>> 1))).set (off + 2)
        (low_bit (x >>> 1 >>> 1))).set (off + 3) (low_bit (x >>> 1 >>> 1 >>> 1)) := by
  simp [encode, low_bit, List.range, List.range.loop]

theorem timecode_layout_eq (c2 c55 lp sign : Nat) (y0 y1 m0 m1 h0 h1 d0 d1 d2 u : Int) :
    encode (((encode (encode (encode (encode (encode (encode (encode (encode (encode
      ((((List.replicate 61 0).set 2 c2).set 55 c55).set 3 lp) 4 y0) 51 y1) 10 m0) 15 m1) 20 h0)
      25 h1) 30 d0) 35 d1) 40 d2).set 50 sign)) 56 u =
    timecode_layout c2 c55 lp sign y0 y1 m0 m1 h0 h1 d0 d1 d2 u := by
  simp only [encode_eq, List.replicate, List.set_cons_succ, List.set_cons_zero, Nat.reduceAdd,
    timecode_layout]

theorem dst_slots_eq (A B C : Prop) [Decidable A] [Decidable B] [Decidable C] :
    (if A then
        (if C then (if B then (List.replicate 61 0).set 2 1 else List.replicate 61 0).set 55 1
         else (if B then (List.replicate 61 0).set 2 1 else List.replicate 61 0))
      else List.replicate 61 0) =
    ((List.replicate 61 0).set 2 (if A ∧ B then 1 else 0)).set 55 (if A ∧ C then 1 else 0) := by
  by_cases hA : A <;> by_cases hB : B <;> by_cases hC : C <;>
    simp only [hA, hB, hC, if_true, if_false, and_self, and_true, and_false, true_and] <;> decide

theorem maketimecode_eq (dut1 : Int) (leap_pending : Bool) (year month day hour minute : Int) :
    maketimecode dut1 leap_pending year month day hour minute =
      timecode_layout (dst_slot_2 year month day) (dst_slot_55 year month day)
        (if leap_pending then 1 else 0) (if dut1 ≥ 0 then 1 else 0)
        (year.tmod 10) ((year.tdiv 10).tmod 10) (minute.tmod 10) (minute.tdiv 10)
        (hour.tmod 10) (hour.tdiv 10) ((day_of_year year month day).tmod 10)
        (((day_of_year year month day).tdiv 10).tmod 10) ((day_of_year year month day).tdiv 100)
        (Int.natAbs dut1) := by
  simp only [maketimecode]
  rw [dst_slots_eq, timecode_layout_eq]
  rfl

theorem decode_eq (l : List Nat) (off a b c d : Nat) (h0 : l[off]? = some a)
    (h1 : l[off + 1]? = some b) (h2 : l[off + 2]? = some c) (h3 : l[off + 3]? = some d)
    (ha : a ≤ 1) (hb : b ≤ 1) (hc : c ≤ 1) (hd : d ≤ 1) :
    decode l off = some ((((d : Int) * 2 + c) * 2 + b) * 2 + a) := by
  have ha' : a = 0 ∨ a = 1 := by omega
  have hb' : b = 0 ∨ b = 1 := by omega
  have hc' : c = 0 ∨ c = 1 := by omega
  have hd' : d = 0 ∨ d = 1 := by omega
  simp [decode, List.foldlM, h0, h1, h2, h3, ha', hb', hc', hd']

theorem low_bits_digit (x : Int) (h0 : 0 ≤ x) (h15 : x ≤ 15) :
    low_bit x ≤ 1 ∧ low_bit (x >>> 1) ≤ 1 ∧ low_bit (x >>> 1 >>> 1) ≤ 1 ∧
      low_bit (x >>> 1 >>> 1 >>> 1) ≤ 1 ∧
      ((((low_bit (x >>> 1 >>> 1 >>> 1) : Nat) : Int) * (2 : Int) +
        ((low_bit (x >>> 1 >>> 1) : Nat) : Int)) * (2 : Int) +
        ((low_bit (x >>> 1) : Nat) : Int)) * (2 : Int) + ((low_bit x : Nat) : Int) = x := by
  interval_cases x <;> decide

theorem decode_digit (l : List Nat) (off : Nat) (x : Int) (h0 : l[off]? = some (low_bit x))
    (h1 : l[off + 1]? = some (low_bit (x >>> 1)))
    (h2 : l[off + 2]? = some (low_bit (x >>> 1 >>> 1)))
    (h3 : l[off + 3]? = some (low_bit (x >>> 1 >>> 1 >>> 1)))
    (hx0 : 0 ≤ x) (hx : x ≤ 15) : decode l off = some x := by
  obtain ⟨ha, hb, hc, hd, hv⟩ := low_bits_digit x hx0 hx
  rw [decode_eq l off _ _ _ _ h0 h1 h2 h3 ha hb hc hd, hv]

theorem day_of_year_eq (y m d : Int) (hm1 : 1 ≤ m) (hm : m ≤ 12) :
    day_of_year y m d =
      d + days_before_month.getD m.toNat 0 + (if gregorian_leap y ∧ m > 2 then 1 else 0) := by
  interval_cases m <;>
    simp [day_of_year, List.range', Days_in_month, days_before_month, is_leap_year_eq] <;>
    split_ifs <;> omega

theorem day_of_year_bounds (y m d : Int) (hv : valid_date y m d) :
    1 ≤ day_of_year y m d ∧ day_of_year y m d ≤ 366 := by
  obtain ⟨hm1, hm, hd1, hd⟩ := hv
  rw [day_of_year_eq y m d hm1 hm]
  unfold gregorian_month_length at hd
  interval_cases m <;> simp [days_before_month] at hd ⊢ <;>
    omega

theorem decode_layout (c2 c55 lp sign : Nat) (y0 y1 m0 m1 h0 h1 d0 d1 d2 u : Int)
    (hy0 : 0 ≤ y0 ∧ y0 ≤ 15) (hy1 : 0 ≤ y1 ∧ y1 ≤ 15) (hm0 : 0 ≤ m0 ∧ m0 ≤ 15)
    (hm1 : 0 ≤ m1 ∧ m1 ≤ 15) (hh0 : 0 ≤ h0 ∧ h0 ≤ 15) (hh1 : 0 ≤ h1 ∧ h1 ≤ 15)
    (hd0 : 0 ≤ d0 ∧ d0 ≤ 15) (hd1 : 0 ≤ d1 ∧ d1 ≤ 15) (hd2 : 0 ≤ d2 ∧ d2 ≤ 15)
    (hu : 0 ≤ u ∧ u ≤ 15) :
    decode_timecode (timecode_layout c2 c55 lp sign y0 y1 m0 m1 h0 h1 d0 d1 d2 u) =
      some {
        year_tens := y1
        year_ones := y0
        doy_hundreds := d2
        doy_tens := d1
        doy_ones := d0
        hour_tens := h1
        hour_ones := h0
        minute_tens := m1
        minute_ones := m0
        dut1 := if sign = 0 then -u else u
        leap_pending := decide (lp ≠ 0)
        dst := dst_message (decide (c2 ≠ 0)) (decide (c55 ≠ 0)) } := by
  unfold decode_timecode
  rw [decode_digit _ 51 y1 rfl rfl rfl rfl hy1.1 hy1.2, decode_digit _ 4 y0 rfl rfl rfl rfl hy0.1 hy0.2,
    decode_digit _ 40 d2 rfl rfl rfl rfl hd2.1 hd2.2, decode_digit _ 35 d1 rfl rfl rfl rfl hd1.1 hd1.2,
    decode_digit _ 30 d0 rfl rfl rfl rfl hd0.1 hd0.2, decode_digit _ 25 h1 rfl rfl rfl rfl hh1.1 hh1.2,
    decode_digit _ 20 h0 rfl rfl rfl rfl hh0.1 hh0.2, decode_digit _ 15 m1 rfl rfl rfl rfl hm1.1 hm1.2,
    decode_digit _ 10 m0 rfl rfl rfl rfl hm0.1 hm0.2, decode_digit _ 56 u rfl rfl rfl rfl hu.1 hu.2]
  rfl

theorem dst_start_doy_pos_iff (year : Int) : dst_start_doy year ≥ 1 ↔ year ≥ 2007 := by
  constructor
  · intro h
    by_contra hy
    simp [dst_start_doy, hy] at h
  · intro hy
    have h := (dst_start_doy_inv year hy).2.1
    split_ifs at h <;> omega

theorem filter_flatMap_eq {α β : Type} (p : β → Bool) (f : α → List β) (l : List α) :
    (l.flatMap f).filter p = l.flatMap (fun a => (f a).filter p) := by
  induction l with
  | nil => rfl
  | cons a l ih => simp [List.flatMap_cons, List.filter_append, ih]

theorem is_subcarrier_in (k startms stopms : Int) (amp : Amp)
    (h : k * 1000 ≤ startms ∧ startms < k * 1000 + 1000) :
    is_subcarrier_of_second k (Call.add_tone startms stopms 100 amp) = true := by
  simp [is_subcarrier_of_second, h]

theorem is_subcarrier_out (k startms stopms freq : Int) (amp : Amp)
    (h : ¬ (k * 1000 ≤ startms ∧ startms < k * 1000 + 1000)) :
    is_subcarrier_of_second k (Call.add_tone startms stopms freq amp) = false := by
  simp only [is_subcarrier_of_second, decide_eq_false_iff_not]
  tauto

theorem filter_pair_pos {α : Type} (p : α → Bool) (a b : α) (ha : p a = true)
    (hb : p b = true) : [a, b].filter p = [a, b] := by
  simp [List.filter, ha, hb]

theorem filter_pair_neg {α : Type} (p : α → Bool) (a b : α) (ha : p a = false)
    (hb : p b = false) : [a, b].filter p = [] := by
  simp [List.filter, ha, hb]

theorem filter_single_neg {α : Type} (p : α → Bool) (a : α) (ha : p a = false) :
    [a].filter p = [] := by
  simp [List.filter, ha]

theorem subcarrier_second_filter (code : List Nat) (k s : Int) :
    (subcarrier_second code s).filter (is_subcarrier_of_second k) =
      if s = k then subcarrier_second code s else [] := by
  by_cases hk : s = k
  · rw [if_pos hk]
    unfold subcarrier_second
    split_ifs <;>
      exact filter_pair_pos _ _ _ (is_subcarrier_in _ _ _ _ (by omega))
        (is_subcarrier_in _ _ _ _ (by omega))
  · rw [if_neg hk]
    unfold subcarrier_second
    split_ifs <;>
      exact filter_pair_neg _ _ _ (is_subcarrier_out _ _ _ _ _ (by omega))
        (is_subcarrier_out _ _ _ _ _ (by omega))

theorem tick_second_filter (tickfreq dut1 k s : Int) :
    (tick_second tickfreq dut1 s).filter (is_subcarrier_of_second k) = [] := by
  unfold tick_second
  split_ifs <;> rfl

theorem gen_tone_filter (cfg : Config) (w : World) (wwvh : Bool) (hour minute k : Int)
    (hk : 45 ≤ k) :
    (gen_tone_or_announcement cfg w wwvh hour minute).filter (is_subcarrier_of_second k) = [] := by
  unfold gen_tone_or_announcement
  simp only []
  split_ifs <;>
    first
      | rfl
      | exact filter_single_neg _ _ (is_subcarrier_out _ _ _ _ _ (by omega))

theorem loop_seconds_61 : loop_seconds 61 = loop_seconds 59 ++ [59, 60] := by decide

theorem loop_seconds_59_lt (s : Int) (hs : s ∈ loop_seconds 59) : s < 59 := by
  revert s
  decide

theorem subcarrier_pulse_leap_minute (cfg : Config) (w : World) (wwvh : Bool)
    (code : List Nat) (dut1 hour minute k : Int) (hk : k = 59 ∨ k = 60) :
    subcarrier_pulse (makeminute cfg w 61 wwvh (some code) dut1 hour minute) k =
      subcarrier_second code k := by
  have hnot : (loop_seconds 59).flatMap
      (fun s => if s = k then subcarrier_second code s else []) = [] := by
    rw [List.flatMap_eq_nil_iff]
    intro s hs
    have := loop_seconds_59_lt s hs
    rw [if_neg (by omega)]
  have hann : (if (!cfg.NoVoice) = true then
      (if (!wwvh) = true then [Call.announce_text 52500 false]
       else [Call.announce_text 45000 true])
      else []).filter (is_subcarrier_of_second k) = [] := by
    split_ifs <;> rfl
  have hticks : ∀ tf : Int, (loop_seconds 61).flatMap
      (fun s => (tick_second tf dut1 s).filter (is_subcarrier_of_second k)) = [] := by
    intro tf
    rw [List.flatMap_eq_nil_iff]
    intro s _
    exact tick_second_filter tf dut1 k s
  unfold subcarrier_pulse makeminute
  simp only [List.filter_append, filter_flatMap_eq, subcarrier_second_filter, hticks, hann,
    gen_tone_filter cfg w wwvh hour minute k (by omega)]
  rw [loop_seconds_61, List.flatMap_append, hnot]
  rcases hk with rfl | rfl <;> simp [List.flatMap, List.filter, is_subcarrier_of_second]

theorem advance_fields (st : Producer) :
    (advance st).dut1 = st.dut1 ∧
    (advance st).Positive_leap_second_pending = st.Positive_leap_second_pending ∧
    (advance st).Negative_leap_second_pending = st.Negative_leap_second_pending ∧
    (advance st).startup = st.startup := by
  unfold advance
  simp only []
  split_ifs <;> exact ⟨rfl, rfl, rfl, rfl⟩

theorem initial_state_invariant (year month day hour minute dut1 : Int)
    (positive negative : Bool) :
    leap_invariant (initial_state year month day hour minute dut1 positive negative) := by
  unfold leap_invariant initial_state startup_validation
  cases positive <;> cases negative <;> simp <;> split_ifs <;> (try simp) <;> omega

theorem iteration_next (cfg : Config) (w : World) (st : Producer) (r : Step)
    (h : iteration cfg w st = some r) :
    r.next = advance (leap_update (minute_length st) st) ∨
      r.next = { advance (leap_update (minute_length st) st) with startup := false } := by
  unfold iteration at h
  simp only [] at h
  split_ifs at h <;> simp at h <;> subst h <;> simp

theorem leap_update_invariant (st : Producer) (h : leap_invariant st) :
    leap_invariant (leap_update (minute_length st) st) := by
  obtain ⟨h1, h2, h3, h4⟩ := h
  unfold leap_invariant leap_update minute_length
  cases hp : st.Positive_leap_second_pending <;> cases hn : st.Negative_leap_second_pending <;>
    simp only [hp, hn] at h3 h4 ⊢ <;> split_ifs <;> simp_all <;> omega

theorem iteration_invariant (cfg : Config) (w : World) (st : Producer) (r : Step)
    (h : iteration cfg w st = some r) (hi : leap_invariant st) : leap_invariant r.next := by
  have hu := leap_update_invariant st hi
  obtain ⟨a1, a2, a3, _⟩ := advance_fields (leap_update (minute_length st) st)
  have ha : leap_invariant (advance (leap_update (minute_length st) st)) := by
    unfold leap_invariant at hu ⊢
    rw [a1, a2, a3]
    exact hu
  rcases iteration_next cfg w st r h with hr | hr <;> rw [hr]
  · exact ha
  · exact ha

theorem run_invariant (cfg : Config) (ws : List World) :
    ∀ st s : Producer, leap_invariant st → run cfg ws st = some s → leap_invariant s := by
  induction ws with
  | nil =>
    intro st s hi h
    simp only [run, Option.some.injEq] at h
    exact h ▸ hi
  | cons w ws ih =>
    intro st s hi h
    simp only [run] at h
    cases hit : iteration cfg w st with
    | none => simp [hit] at h
    | some r =>
      simp only [hit] at h
      exact ih r.next s (iteration_invariant cfg w st r hit hi) h

theorem run_manual_total (cfg : Config) (hm : cfg.manual_time = true) (ws : List World) :
    ∀ st : Producer, ∃ s, run cfg ws st = some s := by
  induction ws with
  | nil => intro st; exact ⟨st, rfl⟩
  | cons w ws ih =>
    intro st
    have hit : iteration cfg w st =
        some { entry := some (queue_entry cfg w st),
               next := advance (leap_update (minute_length st) st) } := by
      simp [iteration, hm]
    simp only [run, hit]
    exact ih _

theorem month_length_eq (y m : Int) (hm1 : 1 ≤ m) (hm : m ≤ 12) :
    (if m = 2 ∧ is_leap_year y then 29 else Days_in_month.getD m.toNat 0) =
      gregorian_month_length y m := by
  rw [is_leap_year_eq]
  unfold gregorian_month_length
  interval_cases m <;> simp [Days_in_month]

theorem day_number_next_month (y m : Int) (hm1 : 1 ≤ m) (hm : m + 1 ≤ 12) :
    day_number y (m + 1) 1 = day_number y m (gregorian_month_length y m) + 1 := by
  have hm' : m ≤ 11 := by omega
  unfold day_number gregorian_month_length
  interval_cases m <;> simp [days_before_month] <;> split_ifs <;> omega

theorem day_number_next_year (y : Int) :
    day_number (y + 1) 1 1 = day_number y 12 31 + 1 := by
  unfold day_number
  rw [days_before_year_succ]
  simp [days_before_month]
  split_ifs <;> omega

/-! ## The claims -/

/-- C1: for every valid civil time with year ≥ 2007, every dut1 in [-7,7] and
every leap_pending flag, `decode_timecode` succeeds on the code built by
`maketimecode` and reads the inputs back: the two year digits give year mod
100, the three day-of-year digits give `day_of_year`, the hour and minute
digits give hour and minute, the signed DUT1 is dut1, and slot 3 is the
leap_pending flag. -/
theorem timecode_roundtrip (dut1 : Int) (leap_pending : Bool) (year month day hour minute : Int)
    (hy : 2007 ≤ year) (hdate : valid_date year month day) (hh : 0 ≤ hour ∧ hour ≤ 23)
    (hm : 0 ≤ minute ∧ minute ≤ 59) (hdut : -7 ≤ dut1 ∧ dut1 ≤ 7) :
    ∃ r : Decoded,
      decode_timecode (maketimecode dut1 leap_pending year month day hour minute) = some r ∧
      10 * r.year_tens + r.year_ones = year % 100 ∧
      100 * r.doy_hundreds + 10 * r.doy_tens + r.doy_ones = day_of_year year month day ∧
      10 * r.hour_tens + r.hour_ones = hour ∧
      10 * r.minute_tens + r.minute_ones = minute ∧
      r.dut1 = dut1 ∧
      r.leap_pending = leap_pending ∧
      (maketimecode dut1 leap_pending year month day hour minute)[3]? =
        some (if leap_pending then 1 else 0) := by
  obtain ⟨hdoy1, hdoy2⟩ := day_of_year_bounds year month day hdate
  have e1 : year.tmod 10 = year % 10 := Int.tmod_eq_emod (by omega) (by decide)
  have e2 : (year.tdiv 10).tmod 10 = year / 10 % 10 := by
    rw [Int.tdiv_eq_ediv (by omega) (by decide)]
    exact Int.tmod_eq_emod (by omega) (by decide)
  have e3 : minute.tmod 10 = minute % 10 := Int.tmod_eq_emod (by omega) (by decide)
  have e4 : minute.tdiv 10 = minute / 10 := Int.tdiv_eq_ediv (by omega) (by decide)
  have e5 : hour.tmod 10 = hour % 10 := Int.tmod_eq_emod (by omega) (by decide)
  have e6 : hour.tdiv 10 = hour / 10 := Int.tdiv_eq_ediv (by omega) (by decide)
  have e7 : (day_of_year year month day).tmod 10 = day_of_year year month day % 10 :=
    Int.tmod_eq_emod (by omega) (by decide)
  have e8 : ((day_of_year year month day).tdiv 10).tmod 10 =
      day_of_year year month day / 10 % 10 := by
    rw [Int.tdiv_eq_ediv (by omega) (by decide)]
    exact Int.tmod_eq_emod (by omega) (by decide)
  have e9 : (day_of_year year month day).tdiv 100 = day_of_year year month day / 100 :=
    Int.tdiv_eq_ediv (by omega) (by decide)
  rw [maketimecode_eq, e1, e2, e3, e4, e5, e6, e7, e8, e9]
  rw [decode_layout _ _ _ _ _ _ _ _ _ _ _ _ _ _ (by omega) (by omega) (by omega) (by omega)
    (by omega) (by omega) (by omega) (by omega) (by omega) (by omega)]
  refine ⟨_, rfl, ?_, ?_, ?_, ?_, ?_, ?_, rfl⟩
  · show 10 * (year / 10 % 10) + year % 10 = year % 100
    omega
  · show 100 * (day_of_year year month day / 100) + 10 * (day_of_year year month day / 10 % 10) +
      day_of_year year month day % 10 = day_of_year year month day
    omega
  · show 10 * (hour / 10) + hour % 10 = hour
    omega
  · show 10 * (minute / 10) + minute % 10 = minute
    omega
  · show (if (if dut1 ≥ 0 then 1 else 0) = 0 then -(Int.natAbs dut1 : Int) else Int.natAbs dut1) = dut1
    by_cases hs : dut1 ≥ 0
    · rw [if_pos hs, if_neg (by decide)]
      omega
    · rw [if_neg hs, if_pos rfl]
      omega
  · show decide ((if leap_pending = true then 1 else 0) ≠ 0) = leap_pending
    cases leap_pending <;> rfl

/-- Witness for C1: 2024-06-15 12:34 with dut1 = +2 and no leap pending. -/
theorem timecode_roundtrip_witness :
    ∃ r : Decoded,
      decode_timecode (maketimecode 2 false 2024 6 15 12 34) = some r ∧
      10 * r.year_tens + r.year_ones = 2024 % 100 ∧
      100 * r.doy_hundreds + 10 * r.doy_tens + r.doy_ones = day_of_year 2024 6 15 ∧
      10 * r.hour_tens + r.hour_ones = 12 ∧
      10 * r.minute_tens + r.minute_ones = 34 ∧
      r.dut1 = 2 ∧
      r.leap_pending = false ∧
      (maketimecode 2 false 2024 6 15 12 34)[3]? = some (if false then 1 else 0) :=
  timecode_roundtrip 2 false 2024 6 15 12 34 (by decide) (by decide) (by decide) (by decide)
    (by decide)

/-- C2: for every year y ≥ 2007, `dst_start_doy y` is the day of year of the
second Sunday of March of year y in the Gregorian calendar (the day of year of
y-03-d for the one d in 8..14 that is a Sunday); it lies in 67..73 in a common
year and in 68..74 in a leap year, and it is 70 for 2007, 71 for 2023 and 74
for 2032. -/
theorem dst_start_doy_second_sunday (y : Int) (hy : 2007 ≤ y) :
    second_sunday_of_march y (dst_start_doy y) ∧
    (is_leap_year y = false → 67 ≤ dst_start_doy y ∧ dst_start_doy y ≤ 73) ∧
    (is_leap_year y = true → 68 ≤ dst_start_doy y ∧ dst_start_doy y ≤ 74) ∧
    dst_start_doy 2007 = 70 ∧ dst_start_doy 2023 = 71 ∧ dst_start_doy 2032 = 74 := by
  obtain ⟨h7, hlo, hhi⟩ := dst_start_doy_inv y hy
  refine ⟨?_, ?_, ?_, by decide, by decide, by decide⟩
  · refine ⟨dst_start_doy y - 59 - (if gregorian_leap y then 1 else 0), ?_, ?_, ?_, ?_, ?_⟩
    · split_ifs at hlo ⊢ <;> omega
    · split_ifs at hhi ⊢ <;> omega
    · simp only [is_sunday, day_number, days_before_month]
      have h3 : (3 : Int).toNat = 2 + 1 := by decide
      simp only [h3, List.getD_cons_succ, List.getD_cons_zero]
      split_ifs <;> simp_all
    · rw [day_of_year_march]
      split_ifs <;> omega
    · intro e he1 he2 hs
      simp only [is_sunday, day_number, days_before_month] at hs
      have h3 : (3 : Int).toNat = 2 + 1 := by decide
      simp only [h3, List.getD_cons_succ, List.getD_cons_zero] at hs
      split_ifs at hs hlo hhi ⊢ <;> simp_all <;> omega
  · intro hl
    rw [is_leap_year_eq] at hl
    simp only [hl] at hlo hhi
    constructor <;> simp at hlo hhi <;> omega
  · intro hl
    rw [is_leap_year_eq] at hl
    simp only [hl] at hlo hhi
    constructor <;> simp at hlo hhi <;> omega

/-- Witness for C2: the year 2024, whose DST starts on day 70 (10 March). -/
theorem dst_start_doy_second_sunday_witness :
    second_sunday_of_march 2024 (dst_start_doy 2024) ∧
    (is_leap_year 2024 = false → 67 ≤ dst_start_doy 2024 ∧ dst_start_doy 2024 ≤ 73) ∧
    (is_leap_year 2024 = true → 68 ≤ dst_start_doy 2024 ∧ dst_start_doy 2024 ≤ 74) ∧
    dst_start_doy 2007 = 70 ∧ dst_start_doy 2023 = 71 ∧ dst_start_doy 2032 = 74 :=
  dst_start_doy_second_sunday 2024 (by decide)

/-- C3: `maketimecode` sets slot 2 to 1 exactly when year ≥ 2007 and
dst_start < doy ≤ dst_start+238 (and to 0 otherwise), and slot 55 to 1 exactly
when year ≥ 2007 and dst_start ≤ doy < dst_start+238 (and to 0 otherwise);
before 2007 both slots are 0; on 2023-03-12, where dst_start = doy = 71, slot
2 is 0 and slot 55 is 1.  This holds for every date, valid or not. -/
theorem dst_slots (dut1 : Int) (leap_pending : Bool) (year month day hour minute : Int) :
    (maketimecode dut1 leap_pending year month day hour minute)[2]? =
      some (if year ≥ 2007 ∧ dst_start_doy year < day_of_year year month day ∧
        day_of_year year month day ≤ dst_start_doy year + 238 then 1 else 0) ∧
    (maketimecode dut1 leap_pending year month day hour minute)[55]? =
      some (if year ≥ 2007 ∧ dst_start_doy year ≤ day_of_year year month day ∧
        day_of_year year month day < dst_start_doy year + 238 then 1 else 0) ∧
    (year < 2007 →
      (maketimecode dut1 leap_pending year month day hour minute)[2]? = some 0 ∧
      (maketimecode dut1 leap_pending year month day hour minute)[55]? = some 0) ∧
    dst_start_doy 2023 = 71 ∧ day_of_year 2023 3 12 = 71 ∧
    (maketimecode dut1 leap_pending 2023 3 12 hour minute)[2]? = some 0 ∧
    (maketimecode dut1 leap_pending 2023 3 12 hour minute)[55]? = some 1 := by
  have key : ∀ y m d : Int,
      (maketimecode dut1 leap_pending y m d hour minute)[2]? =
        some (if y ≥ 2007 ∧ dst_start_doy y < day_of_year y m d ∧
          day_of_year y m d ≤ dst_start_doy y + 238 then 1 else 0) ∧
      (maketimecode dut1 leap_pending y m d hour minute)[55]? =
        some (if y ≥ 2007 ∧ dst_start_doy y ≤ day_of_year y m d ∧
          day_of_year y m d < dst_start_doy y + 238 then 1 else 0) := by
    intro y m d
    rw [maketimecode_eq]
    constructor
    · show some (dst_slot_2 y m d) = _
      simp only [dst_slot_2, dst_start_doy_pos_iff, gt_iff_lt]
    · show some (dst_slot_55 y m d) = _
      simp only [dst_slot_55, dst_start_doy_pos_iff, ge_iff_le]
  have h71 : dst_start_doy 2023 = 71 := by decide
  have d71 : day_of_year 2023 3 12 = 71 := by decide
  refine ⟨(key year month day).1, (key year month day).2, ?_, h71, d71, ?_, ?_⟩
  · intro hy
    have hn : ¬ year ≥ 2007 := by omega
    rw [(key year month day).1, (key year month day).2]
    simp [hn]
  · rw [(key 2023 3 12).1, h71, d71]
    decide
  · rw [(key 2023 3 12).2, h71, d71]
    decide

/-- Witness for C3: 4 July 1999, before the 2007 rules: both DST slots are 0. -/
theorem dst_slots_witness :
    (1999 : Int) < 2007 ∧ (maketimecode 0 false 1999 7 4 12 0)[2]? = some 0 ∧
      (maketimecode 0 false 1999 7 4 12 0)[55]? = some 0 :=
  ⟨by decide, (dst_slots 0 false 1999 7 4 12 0).2.2.1 (by decide)⟩

/-- C4: the length L of the minute built is 61 exactly when positive_pending
holds, month is 6 or 12, hour = 23 and minute = 59; it is 59 exactly when
positive_pending does not hold, negative_pending holds and the same
month/hour/minute condition holds; in every other state it is 60.  The queue
entry built, and the entry appended to the queue when there is one, has
L * Samprate samples. -/
theorem minute_length_cases (cfg : Config) (w : World) (st : Producer) :
    (minute_length st = 61 ↔
      st.Positive_leap_second_pending = true ∧
        ((st.month = 6 ∨ st.month = 12) ∧ st.hour = 23 ∧ st.minute = 59)) ∧
    (minute_length st = 59 ↔
      st.Positive_leap_second_pending = false ∧ st.Negative_leap_second_pending = true ∧
        ((st.month = 6 ∨ st.month = 12) ∧ st.hour = 23 ∧ st.minute = 59)) ∧
    (minute_length st = 60 ↔
      ¬ (st.Positive_leap_second_pending = true ∧
        ((st.month = 6 ∨ st.month = 12) ∧ st.hour = 23 ∧ st.minute = 59)) ∧
      ¬ (st.Positive_leap_second_pending = false ∧ st.Negative_leap_second_pending = true ∧
        ((st.month = 6 ∨ st.month = 12) ∧ st.hour = 23 ∧ st.minute = 59))) ∧
    (queue_entry cfg w st).length = minute_length st * cfg.Samprate ∧
    (match iteration cfg w st with
      | some r =>
        (match r.entry with
          | some qe => qe.length = minute_length st * cfg.Samprate
          | none => True)
      | none => True) := by
  refine ⟨?_, ?_, ?_, rfl, ?_⟩
  · unfold minute_length
    by_cases hc : (st.month = 6 ∨ st.month = 12) ∧ st.hour = 23 ∧ st.minute = 59 <;>
      cases hp : st.Positive_leap_second_pending <;>
      cases hn : st.Negative_leap_second_pending <;> simp [hc]
  · unfold minute_length
    by_cases hc : (st.month = 6 ∨ st.month = 12) ∧ st.hour = 23 ∧ st.minute = 59 <;>
      cases hp : st.Positive_leap_second_pending <;>
      cases hn : st.Negative_leap_second_pending <;> simp [hc]
  · unfold minute_length
    by_cases hc : (st.month = 6 ∨ st.month = 12) ∧ st.hour = 23 ∧ st.minute = 59 <;>
      cases hp : st.Positive_leap_second_pending <;>
      cases hn : st.Negative_leap_second_pending <;> simp [hc]
  · unfold iteration
    simp only []
    split_ifs <;> simp [queue_entry]

/-- C5 (the code at the failing input): at 23:59 on 15 June 2015 with a
positive leap second pending and dut1 = -4, a valid civil time that is not the
last minute of the month, the minute built has 61 seconds and the iteration
clears the pending flag, adds 10 to dut1 and moves on to 16 June 00:00. -/
theorem leap_fires_mid_month :
    valid_civil_time (initial_state 2015 6 15 23 59 (-4) true false) ∧
    (initial_state 2015 6 15 23 59 (-4) true false).Positive_leap_second_pending = true ∧
    minute_length (initial_state 2015 6 15 23 59 (-4) true false) = 61 ∧
    (iteration example_config example_world
        (initial_state 2015 6 15 23 59 (-4) true false)).map (fun r => r.next) =
      some { year := 2015, month := 6, day := 16, hour := 0, minute := 0, dut1 := 6,
             Positive_leap_second_pending := false, Negative_leap_second_pending := false,
             startup := true } := by
  decide

/-- C6 (the claim fails): on the 61-second minute 2015-12-31 23:59 built with
its timecode, the subcarrier pulse of second 60 is not the 800 ms position
marker. -/
theorem second_60_not_marker :
    subcarrier_pulse
        (makeminute example_config example_world 61 false
          (some (maketimecode (-4) true 2015 12 31 23 59)) (-4) 23 59) 60 ≠
      [Call.add_tone 60000 60800 100 Amp.marker_high_amp,
       Call.add_tone 60800 61000 100 Amp.marker_low_amp] := by
  decide

/-- C6 (amended): on a 61-second minute built with the timecode of
`maketimecode`, slot 60 of the code is 0, the subcarrier pulse of second 59 is
the 800 ms position marker (high for [59000,59800) ms, low for [59800,60000)
ms) and the pulse of second 60 is the 200 ms pulse of a 0 bit (high for
[60000,60200) ms, low for [60200,61000) ms). -/
theorem leap_minute_terminal_marker (cfg : Config) (w : World) (wwvh leap_pending : Bool)
    (dut1 year month day hour minute : Int) :
    (maketimecode dut1 leap_pending year month day hour minute)[60]? = some 0 ∧
    subcarrier_pulse
        (makeminute cfg w 61 wwvh
          (some (maketimecode dut1 leap_pending year month day hour minute)) dut1 hour minute) 59 =
      [Call.add_tone 59000 59800 100 Amp.marker_high_amp,
       Call.add_tone 59800 60000 100 Amp.marker_low_amp] ∧
    subcarrier_pulse
        (makeminute cfg w 61 wwvh
          (some (maketimecode dut1 leap_pending year month day hour minute)) dut1 hour minute) 60 =
      [Call.add_tone 60000 60200 100 Amp.marker_high_amp,
       Call.add_tone 60200 61000 100 Amp.marker_low_amp] := by
  refine ⟨?_, ?_, ?_⟩
  · rw [maketimecode_eq]
    rfl
  · rw [subcarrier_pulse_leap_minute cfg w wwvh _ dut1 hour minute 59 (Or.inl rfl)]
    rfl
  · rw [subcarrier_pulse_leap_minute cfg w wwvh _ dut1 hour minute 60 (Or.inr rfl),
      maketimecode_eq]
    rfl

/-- C7: on the start-up discard path and on the enqueue path alike, the pass
through the loop body completes and its end-of-iteration update does this:
after a minute of length 61, positive_pending is false and dut1 is 10 greater;
after a minute of length 59, negative_pending is false and dut1 is 10 less;
after a minute of length 60, dut1 and both pending flags are unchanged. -/
theorem end_of_iteration_update (cfg : Config) (w : World) (st : Producer) :
    (discards_first_minute cfg w st →
      ∃ next, iteration cfg w st = some { entry := none, next := next } ∧
        leap_bookkeeping st next) ∧
    (¬ discards_first_minute cfg w st → enqueues_minute cfg w st →
      ∃ qe next, iteration cfg w st = some { entry := some qe, next := next } ∧
        leap_bookkeeping st next) ∧
    (∀ r, iteration cfg w st = some r → leap_bookkeeping st r.next) := by
  have hb : leap_bookkeeping st (advance (leap_update (minute_length st) st)) := by
    obtain ⟨a1, a2, a3, _⟩ := advance_fields (leap_update (minute_length st) st)
    unfold leap_bookkeeping
    rw [a1, a2, a3]
    refine ⟨?_, ?_, ?_⟩ <;> intro hl <;> rw [hl] <;> simp [leap_update]
  have hb2 : leap_bookkeeping st
      { advance (leap_update (minute_length st) st) with startup := false } := hb
  refine ⟨?_, ?_, ?_⟩
  · rintro ⟨h1, h2, h3⟩
    refine ⟨_, ?_, hb⟩
    simp [iteration, h1, h2, h3]
  · intro hnd he
    unfold discards_first_minute at hnd
    unfold enqueues_minute at he
    by_cases hs : (!cfg.manual_time && st.startup) = true
    · have hm : cfg.manual_time = false ∧ st.startup = true := by simpa using hs
      have he2 : st.minute = w.tm_min ∧
          (cfg.Samprate * (1000000 * w.tm_sec + w.tv_usec)).tdiv 1000000 < cfg.Samprate * 60 := by
        rcases he with (h | h) | h
        · rw [hm.1] at h
          exact absurd h (by decide)
        · rw [hm.2] at h
          exact absurd h (by decide)
        · exact h
      refine ⟨{ queue_entry cfg w st with
          offset := (cfg.Samprate * (1000000 * w.tm_sec + w.tv_usec)).tdiv 1000000 },
        { advance (leap_update (minute_length st) st) with startup := false }, ?_, hb2⟩
      simp only [iteration, hs, if_true, he2.1, ne_eq, not_true_eq_false, if_false, he2.2]
    · refine ⟨queue_entry cfg w st, advance (leap_update (minute_length st) st), ?_, hb⟩
      simp only [iteration, hs, if_false]
      rfl
  · intro r hr
    unfold iteration at hr
    simp only [] at hr
    split_ifs at hr <;> simp at hr <;> subst hr <;> exact hb

/-- Witness for C7: started from the wall clock at 23:59 on 31 December 2015
with a positive leap second pending, while the clock already reads minute 0,
the first minute is discarded and the update still clears the flag and adds 10
to dut1. -/
theorem end_of_iteration_update_witness :
    ∃ next, iteration clock_config example_world
        (initial_state 2015 12 31 23 59 (-4) true false) =
          some { entry := none, next := next } ∧
      leap_bookkeeping (initial_state 2015 12 31 23 59 (-4) true false) next :=
  (end_of_iteration_update clock_config example_world
    (initial_state 2015 12 31 23 59 (-4) true false)).1 (by decide)

/-- C8: whatever dut1 and leap flags the command line gives, after the
start-up validation and after any number of passes through the producer loop
(leap seconds included) dut1 lies in [-7,7] and the positive and negative leap
flags are not both pending; with the time set by hand every pass completes,
so these states exist. -/
theorem leap_state_invariant (cfg : Config) (year month day hour minute dut1 : Int)
    (positive negative : Bool) (ws : List World) :
    (∀ s, run cfg ws (initial_state year month day hour minute dut1 positive negative) = some s →
      (-7 ≤ s.dut1 ∧ s.dut1 ≤ 7) ∧
      ¬ (s.Positive_leap_second_pending = true ∧ s.Negative_leap_second_pending = true)) ∧
    (cfg.manual_time = true →
      ∃ s, run cfg ws (initial_state year month day hour minute dut1 positive negative) = some s) := by
  refine ⟨?_, fun hm => run_manual_total cfg hm ws _⟩
  intro s hs
  obtain ⟨h1, h2, h3, h4⟩ :=
    run_invariant cfg ws _ s (initial_state_invariant year month day hour minute dut1
      positive negative) hs
  refine ⟨⟨h1, h2⟩, ?_⟩
  rintro ⟨hp, hn⟩
  have := h3 hp
  have := h4 hn
  omega

/-- Witness for C8: started at 23:59 on 31 December 2015 with dut1 = -4 and a
positive leap second pending, after two passes (the first fires the leap
second) dut1 is 6 and no leap second is pending. -/
theorem leap_state_invariant_witness :
    run example_config [example_world, example_world]
        (initial_state 2015 12 31 23 59 (-4) true false) =
      some { year := 2016, month := 1, day := 1, hour := 0, minute := 1, dut1 := 6,
             Positive_leap_second_pending := false, Negative_leap_second_pending := false,
             startup := true } ∧
    ((-7 : Int) ≤ 6 ∧ (6 : Int) ≤ 7) ∧ ¬ (false = true ∧ false = true) :=
  ⟨by decide,
   (leap_state_invariant example_config 2015 12 31 23 59 (-4) true false
      [example_world, example_world]).1
      { year := 2016, month := 1, day := 1, hour := 0, minute := 1, dut1 := 6,
        Positive_leap_second_pending := false, Negative_leap_second_pending := false,
        startup := true } (by decide)⟩

/-- C9: for every valid civil time, the advance step of the producer yields a
valid civil time, exactly one minute later in the Gregorian calendar, and it
is the time described by the carries of the specification (hour at 60
minutes, day at 24 hours, month after the last day of the month, year after
December).  In particular 2100-02-28 23:59 advances to 2100-03-01 00:00 and
2000-02-29 23:59 advances to 2000-03-01 00:00. -/
theorem advance_next_minute (st : Producer) (hv : valid_civil_time st) :
    valid_civil_time (advance st) ∧
    minute_number (advance st) = minute_number st + 1 ∧
    advance st = next_minute_spec st ∧
    advance { year := 2100, month := 2, day := 28, hour := 23, minute := 59, dut1 := 0,
              Positive_leap_second_pending := false, Negative_leap_second_pending := false,
              startup := false } =
      { year := 2100, month := 3, day := 1, hour := 0, minute := 0, dut1 := 0,
        Positive_leap_second_pending := false, Negative_leap_second_pending := false,
        startup := false } ∧
    advance { year := 2000, month := 2, day := 29, hour := 23, minute := 59, dut1 := 0,
              Positive_leap_second_pending := false, Negative_leap_second_pending := false,
              startup := false } =
      { year := 2000, month := 3, day := 1, hour := 0, minute := 0, dut1 := 0,
        Positive_leap_second_pending := false, Negative_leap_second_pending := false,
        startup := false } := by
  obtain ⟨⟨hm1, hm12, hd1, hd⟩, hh0, hh, hmi0, hmi⟩ := hv
  have hlen := month_length_eq st.year st.month hm1 hm12
  have hlen1 : 28 ≤ gregorian_month_length st.year st.month := by
    unfold gregorian_month_length; split_ifs <;> omega
  refine ⟨?_, ?_, ?_, by decide, by decide⟩
  · unfold advance
    simp only [hlen]
    unfold valid_civil_time valid_date
    split_ifs <;> simp only [] <;>
      first
        | (refine ⟨⟨?_, ?_, ?_, ?_⟩, ?_, ?_, ?_, ?_⟩ <;> first | omega | (unfold gregorian_month_length; split_ifs <;> omega))
  · unfold advance
    simp only [hlen]
    unfold minute_number
    split_ifs with c1 c2 c3 c4 <;> simp only []
    · rw [day_number_next_year]
      have e1 : st.month = 12 := by omega
      have e2 : st.day = 31 := by
        have : gregorian_month_length st.year 12 = 31 := by
          unfold gregorian_month_length; simp
        rw [e1] at hd c3
        omega
      rw [e1, e2]
      omega
    · rw [day_number_next_month st.year st.month hm1 (by omega)]
      have e2 : st.day = gregorian_month_length st.year st.month := by omega
      rw [← e2]
      omega
    · have : day_number st.year st.month (st.day + 1) = day_number st.year st.month st.day + 1 := by
        unfold day_number; omega
      rw [this]
      omega
    · omega
    · omega
  · unfold advance next_minute_spec
    simp only [hlen]
    split_ifs <;> first | rfl | omega

/-- Witness for C9: 23:59 on 31 December 2015 advances to 00:00 on 1 January
2016. -/
theorem advance_next_minute_witness :
    advance (initial_state 2015 12 31 23 59 0 false false) =
      next_minute_spec (initial_state 2015 12 31 23 59 0 false false) ∧
    minute_number (advance (initial_state 2015 12 31 23 59 0 false false)) =
      minute_number (initial_state 2015 12 31 23 59 0 false false) + 1 :=
  ⟨(advance_next_minute (initial_state 2015 12 31 23 59 0 false false) (by decide)).2.2.1,
   (advance_next_minute (initial_state 2015 12 31 23 59 0 false false) (by decide)).2.1⟩

/-- C10 (the claim fails): for 2024-06-15 12:34 with dut1 = +2 and no leap
pending the slots do not hold the values listed by the claim, which writes
the year, minute-ones and hour-ones digits most significant bit first. -/
theorem bcd_scenario_not_msb_first :
    ¬ (slots (maketimecode 2 false 2024 6 15 12 34) 4 4 = [0, 1, 0, 0] ∧
       slots (maketimecode 2 false 2024 6 15 12 34) 51 4 = [0, 0, 1, 0] ∧
       slots (maketimecode 2 false 2024 6 15 12 34) 10 4 = [0, 1, 0, 0] ∧
       slots (maketimecode 2 false 2024 6 15 12 34) 15 4 = [1, 1, 0, 0] ∧
       slots (maketimecode 2 false 2024 6 15 12 34) 20 4 = [0, 0, 1, 0] ∧
       slots (maketimecode 2 false 2024 6 15 12 34) 25 2 = [1, 0]) := by
  decide

/-- C10 (amended): for 2024-06-15 12:34 with dut1 = +2 and no leap pending the
code has, in ascending slot order (least significant bit first), slots
4..7 = 0,0,1,0 and slots 51..54 = 0,1,0,0 (year 24); slots 10..13 = 0,0,1,0
and slots 15..18 = 1,1,0,0 (minute 34); slots 20..23 = 0,1,0,0 and slots
25..26 = 1,0 (hour 12). -/
theorem bcd_scenario_lsb_first :
    slots (maketimecode 2 false 2024 6 15 12 34) 4 4 = [0, 0, 1, 0] ∧
    slots (maketimecode 2 false 2024 6 15 12 34) 51 4 = [0, 1, 0, 0] ∧
    slots (maketimecode 2 false 2024 6 15 12 34) 10 4 = [0, 0, 1, 0] ∧
    slots (maketimecode 2 false 2024 6 15 12 34) 15 4 = [1, 1, 0, 0] ∧
    slots (maketimecode 2 false 2024 6 15 12 34) 20 4 = [0, 1, 0, 0] ∧
    slots (maketimecode 2 false 2024 6 15 12 34) 25 2 = [1, 0] := by
  decide

/-! ## Helper lemmas for the codec and the calendar -/

theorem low_bit_values (x : Int) (h0 : 0 ≤ x) (h15 : x ≤ 15) :
    low_bit x = (x % 2).toNat ∧ low_bit (x >>> 1) = (x / 2 % 2).toNat ∧
      low_bit (x >>> 1 >>> 1) = (x / 4 % 2).toNat ∧
      low_bit (x >>> 1 >>> 1 >>> 1) = (x / 8 % 2).toNat := by
  interval_cases x <;> decide

theorem encode_length (code : List Nat) (off : Nat) (x : Int) :
    (encode code off x).length = code.length := by
  simp [encode_eq]

theorem encode_getElem (code : List Nat) (off : Nat) (x : Int) (hlen : off + 4 ≤ code.length) :
    (encode code off x)[off]? = some (low_bit x) ∧
    (encode code off x)[off + 1]? = some (low_bit (x >>> 1)) ∧
    (encode code off x)[off + 2]? = some (low_bit (x >>> 1 >>> 1)) ∧
    (encode code off x)[off + 3]? = some (low_bit (x >>> 1 >>> 1 >>> 1)) ∧
    ∀ j, (j < off ∨ off + 4 ≤ j) → (encode code off x)[j]? = code[j]? := by
  rw [encode_eq]
  refine ⟨?_, ?_, ?_, ?_, ?_⟩
  · simp [List.getElem?_set]; omega
  · simp [List.getElem?_set]; omega
  · simp [List.getElem?_set]; omega
  · simp [List.getElem?_set]; omega
  · intro j hj
    simp only [List.getElem?_set]
    have h0 : ¬ off = j := by omega
    have h1 : ¬ off + 1 = j := by omega
    have h2 : ¬ off + 2 = j := by omega
    have h3 : ¬ off + 3 = j := by omega
    simp [h0, h1, h2, h3]

theorem months_before_eq (y m : Int) (hm : m ≤ 13) :
    day_of_year y m 0 = months_before y m := by
  by_cases h1 : 1 ≤ m
  · rw [day_of_year, months_before, is_leap_year_eq]
    unfold gregorian_month_length
    interval_cases m <;> simp [List.range', Days_in_month] <;> split_ifs <;> rfl
  · have h0 : (m - 1).toNat = 0 := by omega
    simp [day_of_year, months_before, h0]

theorem day_of_year_add (y m d : Int) : day_of_year y m d = d + day_of_year y m 0 := by
  unfold day_of_year
  generalize List.range' 1 (m - 1).toNat = l
  have key : ∀ (l : List Nat) (a : Int),
      l.foldl (fun doy i => if i = 2 ∧ is_leap_year y = true then doy + 29
        else doy + Days_in_month.getD i 0) a =
      a + l.foldl (fun doy i => if i = 2 ∧ is_leap_year y = true then doy + 29
        else doy + Days_in_month.getD i 0) 0 := by
    intro l
    induction l with
    | nil => intro a; simp
    | cons i l ih =>
      intro a
      simp only [List.foldl_cons]
      rw [ih, ih (if i = 2 ∧ is_leap_year y = true then (0 : Int) + 29
        else 0 + Days_in_month.getD i 0)]
      split_ifs <;> ring
  exact key l d

/-! ## The claims (continued) -/

/-- C11: for every x in 0..9, `encode` writes into four consecutive slots of
the code the four bits of x, least significant first, each of them 0 or 1,
leaving the other slots alone, and `decode` applied to those four slots (its
assertion holding) returns x. -/
theorem encode_decode_roundtrip (code : List Nat) (off : Nat) (x : Int)
    (hx : 0 ≤ x ∧ x ≤ 9) (hlen : off + 4 ≤ code.length) :
    (encode code off x)[off]? = some (x % 2).toNat ∧
    (encode code off x)[off + 1]? = some (x / 2 % 2).toNat ∧
    (encode code off x)[off + 2]? = some (x / 4 % 2).toNat ∧
    (encode code off x)[off + 3]? = some (x / 8 % 2).toNat ∧
    ((x % 2).toNat ≤ 1 ∧ (x / 2 % 2).toNat ≤ 1 ∧ (x / 4 % 2).toNat ≤ 1 ∧
      (x / 8 % 2).toNat ≤ 1) ∧
    (x % 2).toNat + 2 * (x / 2 % 2).toNat + 4 * (x / 4 % 2).toNat + 8 * (x / 8 % 2).toNat =
      x.toNat ∧
    (∀ j, (j < off ∨ off + 4 ≤ j) → (encode code off x)[j]? = code[j]?) ∧
    (encode code off x).length = code.length ∧
    decode (encode code off x) off = some x := by
  obtain ⟨g0, g1, g2, g3, gj⟩ := encode_getElem code off x hlen
  obtain ⟨v0, v1, v2, v3⟩ := low_bit_values x hx.1 (by omega)
  refine ⟨v0 ▸ g0, v1 ▸ g1, v2 ▸ g2, v3 ▸ g3, by omega, by omega, gj, encode_length code off x,
    decode_digit _ off x g0 g1 g2 g3 hx.1 (by omega)⟩

/-- Witness for C11: the digit 6 encoded at slot 4 of a cleared code. -/
theorem encode_decode_roundtrip_witness :
    decode (encode (List.replicate 61 0) 4 6) 4 = some 6 :=
  (encode_decode_roundtrip (List.replicate 61 0) 4 6 (by decide) (by decide)).2.2.2.2.2.2.2.2

theorem day_of_year_days_before (y m d : Int) (hm1 : 1 ≤ m) (hm : m ≤ 12) :
    day_of_year y m d = days_before y m + d := by
  rw [day_of_year_eq y m d hm1 hm, days_before]
  ring

theorem days_before_succ (y m : Int) (hm1 : 1 ≤ m) (hm : m ≤ 11) :
    days_before y (m + 1) = days_before y m + gregorian_month_length y m := by
  unfold days_before gregorian_month_length
  cases hL : gregorian_leap y <;> interval_cases m <;> simp [days_before_month]

theorem days_before_december (y : Int) :
    days_before y 12 + gregorian_month_length y 12 = gregorian_year_length y := by
  unfold days_before gregorian_month_length gregorian_year_length
  cases hL : gregorian_leap y <;> simp [days_before_month]

theorem gregorian_month_length_pos (y m : Int) : 28 ≤ gregorian_month_length y m := by
  unfold gregorian_month_length
  split_ifs <;> omega

theorem days_before_mono (y : Int) (k : Nat) :
    ∀ a : Int, 1 ≤ a → a + k ≤ 12 → days_before y a ≤ days_before y (a + k) := by
  induction k with
  | zero => intro a _ _; simp
  | succ k ih =>
    intro a h1 h2
    have e : a + ((k + 1 : Nat) : Int) = (a + k) + 1 := by push_cast; ring
    rw [e, days_before_succ y (a + k) (by omega) (by omega)]
    have := ih a h1 (by omega)
    have := gregorian_month_length_pos y (a + k)
    omega

theorem day_of_year_le_year (y m d : Int) (hv : valid_date y m d) :
    1 ≤ day_of_year y m d ∧ day_of_year y m d ≤ gregorian_year_length y := by
  obtain ⟨hm1, hm, hd1, hd⟩ := hv
  rw [day_of_year_days_before y m d hm1 hm]
  have h0 : days_before y 1 = 0 := by simp [days_before, days_before_month]
  have hlo := days_before_mono y (m - 1).toNat 1 (by omega) (by omega)
  have e1 : (1 : Int) + ((m - 1).toNat : Int) = m := by omega
  rw [e1, h0] at hlo
  have hhi := days_before_mono y (12 - m).toNat m hm1 (by omega)
  have e2 : m + ((12 - m).toNat : Int) = 12 := by omega
  rw [e2] at hhi
  have hdec := days_before_december y
  constructor
  · omega
  · by_cases h12 : m = 12
    · subst h12; omega
    · have hs := days_before_succ y m hm1 (by omega)
      have hhi' := days_before_mono y (11 - m).toNat (m + 1) (by omega) (by omega)
      have e3 : m + 1 + ((11 - m).toNat : Int) = 12 := by omega
      rw [e3] at hhi'
      have := gregorian_month_length_pos y 12
      omega

theorem date_of_day_loop_spec (y : Int) (k : Nat) :
    ∀ m n : Int, 1 ≤ m → m + k = 12 → 1 ≤ n → days_before y m + n ≤ gregorian_year_length y →
      valid_date y (date_of_day_loop y k m n).1 (date_of_day_loop y k m n).2 ∧
        days_before y (date_of_day_loop y k m n).1 + (date_of_day_loop y k m n).2 =
          days_before y m + n := by
  induction k with
  | zero =>
    intro m n h1 h2 h3 h4
    have hm : m = 12 := by omega
    subst hm
    have := days_before_december y
    simp only [date_of_day_loop]
    exact ⟨⟨by decide, by decide, h3, by omega⟩, trivial⟩
  | succ k ih =>
    intro m n h1 h2 h3 h4
    simp only [date_of_day_loop]
    split_ifs with hle
    · exact ⟨⟨h1, by omega, h3, hle⟩, rfl⟩
    · have hs := days_before_succ y m h1 (by omega)
      obtain ⟨v, e⟩ := ih (m + 1) (n - gregorian_month_length y m) (by omega) (by omega)
        (by omega) (by omega)
      exact ⟨v, by omega⟩

theorem date_of_day_loop_inv (y m d : Int) (hv : valid_date y m d) (k : Nat) :
    ∀ m0 : Int, 1 ≤ m0 → m0 ≤ m → m0 + k = 12 →
      date_of_day_loop y k m0 (days_before y m + d - days_before y m0) = (m, d) := by
  obtain ⟨hm1, hm, hd1, hd⟩ := hv
  induction k with
  | zero =>
    intro m0 h1 h2 h3
    have e : m0 = m := by omega
    subst e
    simp [date_of_day_loop]
  | succ k ih =>
    intro m0 h1 h2 h3
    simp only [date_of_day_loop]
    by_cases e : m0 = m
    · subst e
      have e2 : days_before y m0 + d - days_before y m0 = d := by ring
      rw [e2, if_pos hd]
    · have hs := days_before_succ y m0 h1 (by omega)
      have hmono := days_before_mono y (m - (m0 + 1)).toNat (m0 + 1) (by omega) (by omega)
      have e3 : m0 + 1 + ((m - (m0 + 1)).toNat : Int) = m := by omega
      rw [e3] at hmono
      rw [if_neg (by omega)]
      have e4 : days_before y m + d - days_before y m0 - gregorian_month_length y m0 =
          days_before y m + d - days_before y (m0 + 1) := by omega
      rw [e4]
      exact ih (m0 + 1) (by omega) (by omega) (by omega)

theorem date_of_day_spec (y n : Int) (h1 : 1 ≤ n) (hn : n ≤ gregorian_year_length y) :
    valid_date y (date_of_day y n).1 (date_of_day y n).2 ∧
      day_of_year y (date_of_day y n).1 (date_of_day y n).2 = n := by
  have h0 : days_before y 1 = 0 := by simp [days_before, days_before_month]
  obtain ⟨v, e⟩ := date_of_day_loop_spec y 11 1 n (by decide) (by decide) h1 (by omega)
  refine ⟨v, ?_⟩
  unfold date_of_day
  rw [day_of_year_days_before y _ _ v.1 v.2.1, e, h0]
  ring

theorem date_of_day_of_year (y m d : Int) (hv : valid_date y m d) :
    date_of_day y (day_of_year y m d) = (m, d) := by
  have h0 : days_before y 1 = 0 := by simp [days_before, days_before_month]
  have := date_of_day_loop_inv y m d hv 11 1 (by decide) hv.1 (by decide)
  rw [h0, sub_zero] at this
  unfold date_of_day
  rw [day_of_year_days_before y m d hv.1 hv.2.1]
  exact this

theorem day_of_year_injective (y m d m' d' : Int) (hv : valid_date y m d)
    (hv' : valid_date y m' d') (h : day_of_year y m d = day_of_year y m' d') :
    m = m' ∧ d = d' := by
  have e1 := date_of_day_of_year y m d hv
  have e2 := date_of_day_of_year y m' d' hv'
  rw [h, e2] at e1
  exact ⟨(congrArg Prod.fst e1).symm, (congrArg Prod.snd e1).symm⟩

/-- C12: for every year y, `day_of_year y m d` is d plus the lengths of the
months 1..m-1 (February counting 29 in a leap year); on the valid dates of
year y it takes its values in 1..365 (1..366 in a leap year), it is injective,
every day number of the year is reached, and the date is recovered from the
day of year. -/
theorem day_of_year_bijection (y : Int) :
    (∀ m d : Int, m ≤ 13 → day_of_year y m d = d + months_before y m) ∧
    (∀ m d : Int, valid_date y m d →
      1 ≤ day_of_year y m d ∧ day_of_year y m d ≤ gregorian_year_length y) ∧
    (∀ m d m' d' : Int, valid_date y m d → valid_date y m' d' →
      day_of_year y m d = day_of_year y m' d' → m = m' ∧ d = d') ∧
    (∀ n : Int, 1 ≤ n → n ≤ gregorian_year_length y →
      valid_date y (date_of_day y n).1 (date_of_day y n).2 ∧
        day_of_year y (date_of_day y n).1 (date_of_day y n).2 = n) ∧
    (∀ m d : Int, valid_date y m d → date_of_day y (day_of_year y m d) = (m, d)) ∧
    gregorian_year_length y = (if is_leap_year y then 366 else 365) := by
  refine ⟨?_, day_of_year_le_year y, day_of_year_injective y, date_of_day_spec y, ?_, ?_⟩
  · intro m d hm
    rw [day_of_year_add, months_before_eq y m hm]
  · exact date_of_day_of_year y
  · rw [is_leap_year_eq]
    rfl

/-- Witness for C12: 29 February 2024 is day 60 of the year, and day 60 of
2024 is 29 February. -/
theorem day_of_year_bijection_witness :
    valid_date 2024 2 29 ∧ day_of_year 2024 2 29 = 60 ∧ date_of_day 2024 60 = (2, 29) :=
  ⟨by decide, by decide,
   (by decide : day_of_year 2024 2 29 = 60) ▸
     (day_of_year_bijection 2024).2.2.2.2.1 2 29 (by decide)⟩

theorem layout_bits (c2 c55 lp sign : Nat) (y0 y1 m0 m1 h0 h1 d0 d1 d2 u : Int)
    (hc2 : c2 ≤ 1) (hc55 : c55 ≤ 1) (hlp : lp ≤ 1) (hsign : sign ≤ 1)
    (hy0 : 0 ≤ y0 ∧ y0 ≤ 15) (hy1 : 0 ≤ y1 ∧ y1 ≤ 15) (hm0 : 0 ≤ m0 ∧ m0 ≤ 15)
    (hm1 : 0 ≤ m1 ∧ m1 ≤ 15) (hh0 : 0 ≤ h0 ∧ h0 ≤ 15) (hh1 : 0 ≤ h1 ∧ h1 ≤ 15)
    (hd0 : 0 ≤ d0 ∧ d0 ≤ 15) (hd1 : 0 ≤ d1 ∧ d1 ≤ 15) (hd2 : 0 ≤ d2 ∧ d2 ≤ 15)
    (hu : 0 ≤ u ∧ u ≤ 15) :
    ∀ b ∈ timecode_layout c2 c55 lp sign y0 y1 m0 m1 h0 h1 d0 d1 d2 u, b = 0 ∨ b = 1 := by
  intro b hb
  obtain ⟨a1, a2, a3, a4, _⟩ := low_bits_digit y0 hy0.1 hy0.2
  obtain ⟨b1, b2, b3, b4, _⟩ := low_bits_digit y1 hy1.1 hy1.2
  obtain ⟨c1, c2', c3, c4, _⟩ := low_bits_digit m0 hm0.1 hm0.2
  obtain ⟨e1, e2, e3, e4, _⟩ := low_bits_digit m1 hm1.1 hm1.2
  obtain ⟨f1, f2, f3, f4, _⟩ := low_bits_digit h0 hh0.1 hh0.2
  obtain ⟨g1, g2, g3, g4, _⟩ := low_bits_digit h1 hh1.1 hh1.2
  obtain ⟨i1, i2, i3, i4, _⟩ := low_bits_digit d0 hd0.1 hd0.2
  obtain ⟨j1, j2, j3, j4, _⟩ := low_bits_digit d1 hd1.1 hd1.2
  obtain ⟨k1, k2, k3, k4, _⟩ := low_bits_digit d2 hd2.1 hd2.2
  obtain ⟨l1, l2, l3, l4, _⟩ := low_bits_digit u hu.1 hu.2
  simp only [timecode_layout, List.mem_cons, List.mem_singleton, List.not_mem_nil, or_false] at hb
  omega

theorem low_bit_high_zero (x : Int) (h0 : 0 ≤ x) (h7 : x ≤ 7) :
    low_bit (x >>> 1 >>> 1 >>> 1) = 0 := by
  interval_cases x <;> decide

/-- C13: for every valid civil time with year ≥ 2007, every dut1 in [-7,7] and
every leap_pending flag, the code built by `maketimecode` has 61 slots, each 0
or 1; slots 0, 9, 19, 29, 39, 49, 59 and 60 are 0; and each of the ten BCD
digits read back by `decode` (year ones and tens, minute ones and tens, hour
ones and tens, day-of-year ones, tens and hundreds, DUT1 magnitude) is
decoded without assertion failure and is at most 9. -/
theorem timecode_well_formed (dut1 : Int) (leap_pending : Bool)
    (year month day hour minute : Int)
    (hy : 2007 ≤ year) (hdate : valid_date year month day) (hh : 0 ≤ hour ∧ hour ≤ 23)
    (hm : 0 ≤ minute ∧ minute ≤ 59) (hdut : -7 ≤ dut1 ∧ dut1 ≤ 7) :
    (maketimecode dut1 leap_pending year month day hour minute).length = 61 ∧
    (∀ b ∈ maketimecode dut1 leap_pending year month day hour minute, b = 0 ∨ b = 1) ∧
    (∀ i ∈ [0, 9, 19, 29, 39, 49, 59, 60],
      (maketimecode dut1 leap_pending year month day hour minute)[i]? = some 0) ∧
    (∀ off ∈ [4, 51, 10, 15, 20, 25, 30, 35, 40, 56],
      ∃ v : Int, decode (maketimecode dut1 leap_pending year month day hour minute) off = some v ∧
        0 ≤ v ∧ v ≤ 9) := by
  obtain ⟨hdoy1, hdoy2⟩ := day_of_year_bounds year month day hdate
  have e1 : year.tmod 10 = year % 10 := Int.tmod_eq_emod (by omega) (by decide)
  have e2 : (year.tdiv 10).tmod 10 = year / 10 % 10 := by
    rw [Int.tdiv_eq_ediv (by omega) (by decide)]
    exact Int.tmod_eq_emod (by omega) (by decide)
  have e3 : minute.tmod 10 = minute % 10 := Int.tmod_eq_emod (by omega) (by decide)
  have e4 : minute.tdiv 10 = minute / 10 := Int.tdiv_eq_ediv (by omega) (by decide)
  have e5 : hour.tmod 10 = hour % 10 := Int.tmod_eq_emod (by omega) (by decide)
  have e6 : hour.tdiv 10 = hour / 10 := Int.tdiv_eq_ediv (by omega) (by decide)
  have e7 : (day_of_year year month day).tmod 10 = day_of_year year month day % 10 :=
    Int.tmod_eq_emod (by omega) (by decide)
  have e8 : ((day_of_year year month day).tdiv 10).tmod 10 =
      day_of_year year month day / 10 % 10 := by
    rw [Int.tdiv_eq_ediv (by omega) (by decide)]
    exact Int.tmod_eq_emod (by omega) (by decide)
  have e9 : (day_of_year year month day).tdiv 100 = day_of_year year month day / 100 :=
    Int.tdiv_eq_ediv (by omega) (by decide)
  have hc2 : dst_slot_2 year month day ≤ 1 := by unfold dst_slot_2; split_ifs <;> omega
  have hc55 : dst_slot_55 year month day ≤ 1 := by unfold dst_slot_55; split_ifs <;> omega
  have hlp : (if leap_pending = true then 1 else 0 : Nat) ≤ 1 := by split_ifs <;> omega
  have hsign : (if dut1 ≥ 0 then 1 else 0 : Nat) ≤ 1 := by split_ifs <;> omega
  have h59 := low_bit_high_zero (Int.natAbs dut1) (by omega) (by omega)
  rw [maketimecode_eq, e1, e2, e3, e4, e5, e6, e7, e8, e9]
  refine ⟨rfl, ?_, ?_, ?_⟩
  · exact layout_bits _ _ _ _ _ _ _ _ _ _ _ _ _ _ hc2 hc55 hlp hsign (by omega) (by omega)
      (by omega) (by omega) (by omega) (by omega) (by omega) (by omega) (by omega) (by omega)
  · intro i hi
    simp only [List.mem_cons, List.mem_singleton, List.not_mem_nil, or_false] at hi
    rcases hi with rfl | rfl | rfl | rfl | rfl | rfl | rfl | rfl
    · rfl
    · rfl
    · rfl
    · rfl
    · rfl
    · rfl
    · show some (low_bit ((Int.natAbs dut1 : Int) >>> 1 >>> 1 >>> 1)) = some 0
      rw [h59]
    · rfl
  · intro off hoff
    simp only [List.mem_cons, List.mem_singleton, List.not_mem_nil, or_false] at hoff
    rcases hoff with rfl | rfl | rfl | rfl | rfl | rfl | rfl | rfl | rfl | rfl
    · exact ⟨_, decode_digit _ 4 _ rfl rfl rfl rfl (by omega) (by omega), by omega, by omega⟩
    · exact ⟨_, decode_digit _ 51 _ rfl rfl rfl rfl (by omega) (by omega), by omega, by omega⟩
    · exact ⟨_, decode_digit _ 10 _ rfl rfl rfl rfl (by omega) (by omega), by omega, by omega⟩
    · exact ⟨_, decode_digit _ 15 _ rfl rfl rfl rfl (by omega) (by omega), by omega, by omega⟩
    · exact ⟨_, decode_digit _ 20 _ rfl rfl rfl rfl (by omega) (by omega), by omega, by omega⟩
    · exact ⟨_, decode_digit _ 25 _ rfl rfl rfl rfl (by omega) (by omega), by omega, by omega⟩
    · exact ⟨_, decode_digit _ 30 _ rfl rfl rfl rfl (by omega) (by omega), by omega, by omega⟩
    · exact ⟨_, decode_digit _ 35 _ rfl rfl rfl rfl (by omega) (by omega), by omega, by omega⟩
    · exact ⟨_, decode_digit _ 40 _ rfl rfl rfl rfl (by omega) (by omega), by omega, by omega⟩
    · exact ⟨_, decode_digit _ 56 (Int.natAbs dut1 : Int) rfl rfl rfl rfl (by omega) (by omega),
        by omega, by omega⟩

/-- Witness for C13: 2024-06-15 12:34 with dut1 = +2 and no leap pending. -/
theorem timecode_well_formed_witness :
    (maketimecode 2 false 2024 6 15 12 34).length = 61 ∧
    (∀ b ∈ maketimecode 2 false 2024 6 15 12 34, b = 0 ∨ b = 1) ∧
    (∀ i ∈ [0, 9, 19, 29, 39, 49, 59, 60], (maketimecode 2 false 2024 6 15 12 34)[i]? = some 0) ∧
    (∀ off ∈ [4, 51, 10, 15, 20, 25, 30, 35, 40, 56],
      ∃ v : Int, decode (maketimecode 2 false 2024 6 15 12 34) off = some v ∧ 0 ≤ v ∧ v ≤ 9) :=
  timecode_well_formed 2 false 2024 6 15 12 34 (by decide) (by decide) (by decide) (by decide)
    (by decide)

/-- C14: when no announcement file applies and tones are not suppressed, for
every station, hour 0-23 and minute 0-59, `gen_tone_or_announcement` adds over
[1000,45000) ms the tone of the station's schedule entry for the minute, and
nothing when the entry is 0 or when it is 440 and hour is 0.  The two tables
are the literal lists of the specification, have 60 entries, each one of 0,
440, 500, 600, and 440 occurs only at minute 2 for WWV and minute 1 for
WWVH. -/
theorem scheduled_tone (cfg : Config) (w : World) (wwvh : Bool) (hour minute : Int)
    (hann : cfg.NoVoice = true ∨ (w.raw_readable = false ∧ w.text_readable = false))
    (htone : cfg.NoTone = false) (_hh : 0 ≤ hour ∧ hour ≤ 23)
    (_hm : 0 ≤ minute ∧ minute ≤ 59) :
    gen_tone_or_announcement cfg w wwvh hour minute =
      (if (if wwvh then WWVH_tone_schedule else WWV_tone_schedule).getD minute.toNat 0 = 0 ∨
          ((if wwvh then WWVH_tone_schedule else WWV_tone_schedule).getD minute.toNat 0 = 440 ∧
            hour = 0) then []
       else [Call.add_tone 1000 45000
          ((if wwvh then WWVH_tone_schedule else WWV_tone_schedule).getD minute.toNat 0)
          Amp.tone_amp]) ∧
    WWV_tone_schedule = spec_WWV_schedule ∧ WWVH_tone_schedule = spec_WWVH_schedule ∧
    WWV_tone_schedule.length = 60 ∧ WWVH_tone_schedule.length = 60 ∧
    (∀ e ∈ WWV_tone_schedule, e = 0 ∨ e = 440 ∨ e = 500 ∨ e = 600) ∧
    (∀ e ∈ WWVH_tone_schedule, e = 0 ∨ e = 440 ∨ e = 500 ∨ e = 600) ∧
    (∀ m : Nat, m < 60 → (WWV_tone_schedule.getD m 0 = 440 ↔ m = 2)) ∧
    (∀ m : Nat, m < 60 → (WWVH_tone_schedule.getD m 0 = 440 ↔ m = 1)) := by
  refine ⟨?_, by decide, by decide, by decide, by decide, by decide, by decide, by decide,
    by decide⟩
  have h1 : (!cfg.NoVoice && w.raw_readable) = false := by
    rcases hann with h | ⟨h, _⟩ <;> simp [h]
  have h2 : (!cfg.NoVoice && w.text_readable) = false := by
    rcases hann with h | ⟨_, h⟩ <;> simp [h]
  unfold gen_tone_or_announcement
  simp only [h1, h2, htone]
  cases wwvh <;> simp <;> split_ifs <;> simp_all

/-- Witness for C14: WWVH at 00:01, where the table says 440 Hz and hour 0
suppresses it. -/
theorem scheduled_tone_witness :
    gen_tone_or_announcement example_config example_world true 0 1 = [] ∧
    gen_tone_or_announcement example_config example_world true 5 1 =
      [Call.add_tone 1000 45000 440 Amp.tone_amp] :=
  ⟨(scheduled_tone example_config example_world true 0 1 (by decide) (by decide) (by decide)
      (by decide)).1,
   (scheduled_tone example_config example_world true 5 1 (by decide) (by decide) (by decide)
      (by decide)).1⟩

theorem mem_loop_seconds (length s : Int) : s ∈ loop_seconds length ↔ 1 ≤ s ∧ s < length := by
  unfold loop_seconds
  simp only [List.mem_map, List.mem_range']
  constructor
  · rintro ⟨k, ⟨i, hi, rfl⟩, rfl⟩
    simp only [Int.ofNat_eq_coe]
    omega
  · rintro ⟨h1, h2⟩
    refine ⟨s.toNat, ⟨s.toNat - 1, by omega, by omega⟩, ?_⟩
    simp only [Int.ofNat_eq_coe]
    omega

theorem filterMap_flatMap_eq {α β γ : Type} (g : β → Option γ) (f : α → List β) (l : List α) :
    (l.flatMap f).filterMap g = l.flatMap (fun a => (f a).filterMap g) := by
  induction l with
  | nil => rfl
  | cons a l ih => simp [List.flatMap_cons, List.filterMap_append, ih]

theorem double_tick_seconds_append (a b : List Call) :
    double_tick_seconds (a ++ b) = double_tick_seconds a ++ double_tick_seconds b := by
  simp [double_tick_seconds, List.filterMap_append]

theorem double_tick_seconds_gen_tone (cfg : Config) (w : World) (wwvh : Bool)
    (hour minute : Int) :
    double_tick_seconds (gen_tone_or_announcement cfg w wwvh hour minute) = [] := by
  unfold gen_tone_or_announcement
  simp only []
  split_ifs <;> rfl

theorem double_tick_seconds_subcarrier (code : List Nat) (s : Int) :
    double_tick_seconds (subcarrier_second code s) = [] := by
  unfold subcarrier_second
  split_ifs <;> rfl

theorem double_tick_seconds_tick (tickfreq dut1 s : Int) :
    double_tick_seconds (tick_second tickfreq dut1 s) =
      if (dut1 > 0 ∧ s ≥ 1 ∧ s ≤ dut1) ∨ (-dut1 > 0 ∧ s ≥ 9 ∧ s ≤ 8 - dut1) then [s] else [] := by
  have h0 : double_tick_of (Call.overlay_silence (1000 * s - 10) (1000 * s + 30)) = none := rfl
  have h1 : double_tick_of (Call.overlay_tone (1000 * s) (1000 * s + 5) tickfreq Amp.tick_amp) =
      none := by
    simp only [double_tick_of]
    rw [if_neg (by omega)]
  have h2 : double_tick_of
      (Call.overlay_tone (1000 * s + 100) (1000 * s + 105) tickfreq Amp.tick_amp) = some s := by
    simp only [double_tick_of]
    rw [if_pos (by omega)]
    congr 1
    omega
  unfold tick_second double_tick_seconds
  split_ifs <;> simp [List.filterMap, h0, h1, h2]

theorem double_tick_seconds_makeminute (cfg : Config) (w : World) (length : Int) (wwvh : Bool)
    (code : Option (List Nat)) (dut1 hour minute : Int) :
    double_tick_seconds (makeminute cfg w length wwvh code dut1 hour minute) =
      (loop_seconds length).flatMap (fun s =>
        if (dut1 > 0 ∧ s ≥ 1 ∧ s ≤ dut1) ∨ (-dut1 > 0 ∧ s ≥ 9 ∧ s ≤ 8 - dut1) then [s]
        else []) := by
  have hann : double_tick_seconds (if (!cfg.NoVoice) = true then
      (if (!wwvh) = true then [Call.announce_text 52500 false]
       else [Call.announce_text 45000 true])
      else []) = [] := by
    split_ifs <;> rfl
  have hsub : ∀ code : List Nat,
      double_tick_seconds ((loop_seconds length).flatMap (subcarrier_second code)) = [] := by
    intro code
    simp only [double_tick_seconds, filterMap_flatMap_eq]
    rw [List.flatMap_eq_nil_iff]
    intro s _
    exact double_tick_seconds_subcarrier code s
  have hnil : double_tick_seconds [] = [] := rfl
  have hbeep : ∀ f : Int, double_tick_seconds
      [Call.overlay_tone 0 800 f Amp.tick_amp, Call.overlay_silence 800 1000] = [] := by
    intro f
    simp [double_tick_seconds, List.filterMap, double_tick_of]
  have hticks : ∀ tf : Int,
      double_tick_seconds ((loop_seconds length).flatMap (tick_second tf dut1)) =
        (loop_seconds length).flatMap (fun s =>
          if (dut1 > 0 ∧ s ≥ 1 ∧ s ≤ dut1) ∨ (-dut1 > 0 ∧ s ≥ 9 ∧ s ≤ 8 - dut1) then [s]
          else []) := by
    intro tf
    have e := filterMap_flatMap_eq double_tick_of (tick_second tf dut1) (loop_seconds length)
    unfold double_tick_seconds
    rw [e]
    congr 1
    funext s
    exact double_tick_seconds_tick tf dut1 s
  cases code <;> unfold makeminute <;>
    simp only [double_tick_seconds_append, double_tick_seconds_gen_tone, hann, hsub, hnil, hbeep,
      hticks, List.nil_append]

/-- C16: for every dut1 in [-7,7] and every minute length L in {59,60,61}, the
seconds at which `makeminute` writes the extra 5 ms tick at s*1000+100 ms are,
in order, 1..dut1 when dut1 > 0, 9..8+|dut1| when dut1 < 0, and none when
dut1 = 0; so there are |dut1| of them, and second s is among them exactly when
1 ≤ s ≤ dut1 or (dut1 < 0 and 9 ≤ s ≤ 8 - dut1). -/
theorem double_ticks (cfg : Config) (w : World) (length : Int) (wwvh : Bool)
    (code : Option (List Nat)) (dut1 hour minute : Int)
    (hL : length = 59 ∨ length = 60 ∨ length = 61) (hdut : -7 ≤ dut1 ∧ dut1 ≤ 7) :
    double_tick_seconds (makeminute cfg w length wwvh code dut1 hour minute) =
      (if dut1 > 0 then (List.range' 1 dut1.toNat).map Int.ofNat
       else (List.range' 9 (-dut1).toNat).map Int.ofNat) ∧
    (double_tick_seconds (makeminute cfg w length wwvh code dut1 hour minute)).length =
      dut1.natAbs ∧
    (∀ s : Int, s ∈ double_tick_seconds (makeminute cfg w length wwvh code dut1 hour minute) ↔
      (dut1 > 0 ∧ 1 ≤ s ∧ s ≤ dut1) ∨ (dut1 < 0 ∧ 9 ≤ s ∧ s ≤ 8 - dut1)) := by
  rw [double_tick_seconds_makeminute]
  obtain ⟨h1, h2⟩ := hdut
  refine ⟨?_, ?_, ?_⟩
  · rcases hL with rfl | rfl | rfl <;> interval_cases dut1 <;> decide
  · rcases hL with rfl | rfl | rfl <;> interval_cases dut1 <;> decide
  · intro s
    simp only [List.mem_flatMap, mem_loop_seconds]
    constructor
    · rintro ⟨t, _, ht⟩
      split_ifs at ht with hc
      · simp only [List.mem_singleton] at ht
        subst ht
        omega
      · simp at ht
    · intro hs
      refine ⟨s, by omega, ?_⟩
      rw [if_pos (by omega)]
      simp

/-- Witness for C16: dut1 = -7 on a 60-second minute doubles the ticks of
seconds 9..15. -/
theorem double_ticks_witness :
    double_tick_seconds (makeminute example_config example_world 60 false none (-7) 12 34) =
      [9, 10, 11, 12, 13, 14, 15] :=
  (double_ticks example_config example_world 60 false none (-7) 12 34 (by decide)
    (by decide)).1

theorem range_check_ok (startms stopms : Int) (h0 : 0 ≤ startms) (h1 : startms < stopms)
    (h2 : stopms ≤ 61000) : range_check_fails startms stopms = false := by
  simp only [range_check_fails, decide_eq_false_iff_not]
  omega

theorem tmod_1000_zero (a : Int) (h : a % 1000 = 0) : a.tmod 1000 = 0 :=
  (tmod_eq_zero_iff a 1000).2 h

theorem gen_tone_checks (cfg : Config) (w : World) (wwvh : Bool) (hour minute length : Int)
    (hL : 59 ≤ length) :
    ∀ c ∈ gen_tone_or_announcement cfg w wwvh hour minute, call_checks length c := by
  have htone : ∀ tone : Int, call_checks length (Call.add_tone 1000 45000 tone Amp.tone_amp) :=
    fun tone => ⟨range_check_ok _ _ (by omega) (by omega) (by omega),
      tmod_1000_zero _ (by omega), by omega⟩
  intro c hc
  unfold gen_tone_or_announcement at hc
  simp only [] at hc
  split_ifs at hc <;> simp only [List.mem_singleton, List.not_mem_nil] at hc <;> subst hc <;>
    first
      | trivial
      | exact htone _

theorem subcarrier_second_checks (code : List Nat) (s length : Int) (h1 : 1 ≤ s)
    (h2 : s < length) (hL : length ≤ 61) :
    ∀ c ∈ subcarrier_second code s, call_checks length c := by
  intro c hc
  unfold subcarrier_second at hc
  split_ifs at hc <;>
    simp only [List.mem_cons, List.mem_singleton, List.not_mem_nil, or_false] at hc <;>
    rcases hc with rfl | rfl <;>
    exact ⟨range_check_ok _ _ (by omega) (by omega) (by omega),
      tmod_1000_zero _ (by omega), by omega⟩

theorem tick_second_checks (tickfreq dut1 s length : Int)
    (htf : tickfreq = 1000 ∨ tickfreq = 1200) (h1 : 1 ≤ s) (h2 : s < length)
    (hL : length ≤ 61) :
    ∀ c ∈ tick_second tickfreq dut1 s, call_checks length c := by
  intro c hc
  unfold tick_second at hc
  rw [List.mem_append] at hc
  rcases hc with hc | hc
  · split_ifs at hc with hp
    · simp only [List.mem_cons, List.mem_singleton, List.not_mem_nil, or_false] at hc
      rcases hc with rfl | rfl
      · exact ⟨range_check_ok _ _ (by omega) (by omega) (by omega), by omega⟩
      · exact ⟨range_check_ok _ _ (by omega) (by omega) (by omega),
          tmod_1000_zero _ (by rcases htf with rfl | rfl <;> omega), by omega⟩
    · simp at hc
  · split_ifs at hc with hp
    · simp only [List.mem_singleton] at hc
      subst hc
      exact ⟨range_check_ok _ _ (by omega) (by omega) (by omega),
        tmod_1000_zero _ (by rcases htf with rfl | rfl <;> omega), by omega⟩
    · simp at hc

theorem makeminute_checks (cfg : Config) (w : World) (length : Int) (wwvh : Bool)
    (code : Option (List Nat)) (dut1 hour minute : Int)
    (hL : length = 59 ∨ length = 60 ∨ length = 61) :
    ∀ c ∈ makeminute cfg w length wwvh code dut1 hour minute, call_checks length c := by
  intro c hc
  have hann : ∀ c ∈ (if (!cfg.NoVoice) = true then
      (if (!wwvh) = true then [Call.announce_text 52500 false]
       else [Call.announce_text 45000 true])
      else []), call_checks length c := by
    intro c hc
    split_ifs at hc <;> simp only [List.mem_singleton, List.not_mem_nil] at hc <;> subst hc <;>
      trivial
  have hbeep : ∀ f : Int, ∀ c ∈ [Call.overlay_tone 0 800 f Amp.tick_amp,
      Call.overlay_silence 800 1000], call_checks length c := by
    intro f c hc
    simp only [List.mem_cons, List.mem_singleton, List.not_mem_nil, or_false] at hc
    rcases hc with rfl | rfl
    · exact ⟨range_check_ok _ _ (by omega) (by omega) (by omega),
        tmod_1000_zero _ (by simp), by omega⟩
    · exact ⟨range_check_ok _ _ (by omega) (by omega) (by omega), by omega⟩
  have hsub : ∀ code : List Nat, ∀ c ∈ (loop_seconds length).flatMap (subcarrier_second code),
      call_checks length c := by
    intro code c hc
    simp only [List.mem_flatMap, mem_loop_seconds] at hc
    obtain ⟨s, ⟨h1, h2⟩, hs⟩ := hc
    exact subcarrier_second_checks code s length h1 h2 (by omega) c hs
  have hticks : ∀ c ∈ (loop_seconds length).flatMap
      (tick_second (if wwvh then 1200 else 1000) dut1), call_checks length c := by
    intro c hc
    simp only [List.mem_flatMap, mem_loop_seconds] at hc
    obtain ⟨s, ⟨h1, h2⟩, hs⟩ := hc
    exact tick_second_checks _ dut1 s length (by cases wwvh <;> simp) h1 h2 (by omega) c hs
  cases code <;> unfold makeminute at hc <;> simp only [List.mem_append] at hc
  · rcases hc with (((hc | hc) | hc) | hc) | hc
    · exact gen_tone_checks cfg w wwvh hour minute length (by omega) c hc
    · exact hann c hc
    · simp at hc
    · exact hbeep _ c hc
    · exact hticks c hc
  · rcases hc with (((hc | hc) | hc) | hc) | hc
    · exact gen_tone_checks cfg w wwvh hour minute length (by omega) c hc
    · exact hann c hc
    · exact hsub _ c hc
    · exact hbeep _ c hc
    · exact hticks c hc

theorem apply_call_checked (sy : Synth) (output : Buffer) (length : Int) (c : Call)
    (hc : call_checks length c) (hm : is_mixer_call c = true) :
    ∃ b, apply_call sy output c = some (0, b) := by
  cases c with
  | add_tone a b f amp =>
    obtain ⟨h1, h2, _⟩ := hc
    simp [apply_call, add_tone, h1, h2]
  | overlay_tone a b f amp =>
    obtain ⟨h1, h2, _⟩ := hc
    simp [apply_call, overlay_tone, h1, h2]
  | overlay_silence a b =>
    obtain ⟨h1, _⟩ := hc
    simp [apply_call, overlay_silence, h1]
  | announce_audio_file a => simp [is_mixer_call] at hm
  | announce_text_file a f => simp [is_mixer_call] at hm
  | announce_text a f => simp [is_mixer_call] at hm

theorem span_in_buffer (sy : Synth) (hs : 0 ≤ sy.Samprate_ms) (length a b i : Int)
    (h1 : range_check_fails a b = false) (h2 : b ≤ length * 1000) (hi : in_span sy a b i) :
    0 ≤ i ∧ i < length * (1000 * sy.Samprate_ms) := by
  simp only [range_check_fails, decide_eq_false_iff_not] at h1
  obtain ⟨hi1, hi2⟩ := hi
  have e1 : 0 ≤ a * sy.Samprate_ms := mul_nonneg (by omega) hs
  have e2 : 0 ≤ (length * 1000 - b) * sy.Samprate_ms := mul_nonneg (by omega) hs
  constructor
  · omega
  · nlinarith

theorem writes_in_buffer (sy : Synth) (hs : 0 ≤ sy.Samprate_ms) (length : Int) (c : Call)
    (hc : call_checks length c) (hm : is_mixer_call c = true) (i : Int) (hw : writes sy i c) :
    0 ≤ i ∧ i < length * (1000 * sy.Samprate_ms) := by
  cases c with
  | add_tone a b f amp => exact span_in_buffer sy hs length a b i hc.1 hc.2.2 hw.2
  | overlay_tone a b f amp => exact span_in_buffer sy hs length a b i hc.1 hc.2.2 hw.2
  | overlay_silence a b => exact span_in_buffer sy hs length a b i hc.1 hc.2 hw.2
  | announce_audio_file a => simp [is_mixer_call] at hm
  | announce_text_file a f => simp [is_mixer_call] at hm
  | announce_text a f => simp [is_mixer_call] at hm

/-- C17: for every minute length L in {59,60,61}, station, timecode (or none),
integer dut1, hour and minute, every `overlay_tone`, `add_tone` and
`overlay_silence` call issued by `makeminute`, the scheduled tone of
`gen_tone_or_announcement` included, passes the range check, satisfies the
zero-crossing assertion and stops by L*1000 ms; so the call returns 0, and with
Samprate = 1000 * Samprate_ms every sample it writes has its index in
0 .. L*Samprate - 1. -/
theorem mixer_calls_in_range (cfg : Config) (w : World) (length : Int) (wwvh : Bool)
    (code : Option (List Nat)) (dut1 hour minute : Int)
    (hL : length = 59 ∨ length = 60 ∨ length = 61) (_hh : 0 ≤ hour ∧ hour ≤ 23)
    (_hm : 0 ≤ minute ∧ minute ≤ 59) :
    (∀ c ∈ makeminute cfg w length wwvh code dut1 hour minute, call_checks length c) ∧
    (∀ c ∈ makeminute cfg w length wwvh code dut1 hour minute, is_mixer_call c = true →
      ∀ (sy : Synth) (output : Buffer), ∃ b, apply_call sy output c = some (0, b)) ∧
    (∀ sy : Synth, 0 ≤ sy.Samprate_ms →
      ∀ c ∈ makeminute cfg w length wwvh code dut1 hour minute, is_mixer_call c = true →
        ∀ i : Int, writes sy i c → 0 ≤ i ∧ i < length * (1000 * sy.Samprate_ms)) := by
  have hall := makeminute_checks cfg w length wwvh code dut1 hour minute hL
  refine ⟨hall, ?_, ?_⟩
  · intro c hc hm sy output
    exact apply_call_checked sy output length c (hall c hc) hm
  · intro sy hs c hc hm i hw
    exact writes_in_buffer sy hs length c (hall c hc) hm i hw

/-- Witness for C17: on the 61-second minute 2015-12-31 23:59 the last
subcarrier call, for second 60, stops at 61000 ms. -/
theorem mixer_calls_in_range_witness :
    call_checks 61 (Call.add_tone 60200 61000 100 Amp.marker_low_amp) :=
  (mixer_calls_in_range example_config example_world 61 false
    (some (maketimecode (-4) true 2015 12 31 23 59)) (-4) 23 59 (by decide) (by decide)
    (by decide)).1 _ (by decide)

theorem render_append (sy : Synth) (a b : List Call) :
    ∀ output : Buffer, render sy (a ++ b) output = (render sy a output).bind (render sy b) := by
  induction a with
  | nil => intro output; rfl
  | cons c a ih =>
    intro output
    simp only [List.cons_append, render]
    cases apply_call sy output c with
    | none => rfl
    | some r => exact ih r.2

theorem render_total (sy : Synth) (length : Int) (cs : List Call) :
    (∀ c ∈ cs, call_checks length c) → ∀ output : Buffer, ∃ b, render sy cs output = some b := by
  induction cs with
  | nil => intro _ output; exact ⟨output, rfl⟩
  | cons c cs ih =>
    intro h output
    have hc := h c (List.mem_cons_self c cs)
    have hrest := ih (fun c' hc' => h c' (List.mem_cons_of_mem c hc'))
    by_cases hm : is_mixer_call c = true
    · obtain ⟨b, hb⟩ := apply_call_checked sy output length c hc hm
      simp only [render, hb]
      exact hrest b
    · have : ∃ r, apply_call sy output c = some r := by
        cases c <;> simp [is_mixer_call] at hm <;> exact ⟨_, rfl⟩
      obtain ⟨r, hr⟩ := this
      simp only [render, hr]
      exact hrest r.2

theorem apply_call_untouched (sy : Synth) (output : Buffer) (c : Call) (r : Int × Buffer)
    (i : Int) (h : apply_call sy output c = some r) (hw : ¬ writes sy i c) :
    r.2 i = output i := by
  cases c with
  | add_tone a b f amp =>
    simp only [apply_call, add_tone] at h
    simp only [writes] at hw
    split_ifs at h with h1 h2
    · simp only [Option.some.injEq] at h
      rw [← h]
    · simp only [Option.some.injEq] at h
      rw [← h]
      have hs : ¬ in_span sy a b i := fun hs => hw ⟨by simpa using h1, hs⟩
      simp only [hs, if_false]
  | overlay_tone a b f amp =>
    simp only [apply_call, overlay_tone] at h
    simp only [writes] at hw
    split_ifs at h with h1 h2
    · simp only [Option.some.injEq] at h
      rw [← h]
    · simp only [Option.some.injEq] at h
      rw [← h]
      have hs : ¬ in_span sy a b i := fun hs => hw ⟨by simpa using h1, hs⟩
      simp only [hs, if_false]
  | overlay_silence a b =>
    simp only [apply_call, overlay_silence, Option.some.injEq] at h
    simp only [writes] at hw
    rw [← h]
    split_ifs with h1
    · rfl
    · have hs : ¬ in_span sy a b i := fun hs => hw ⟨by simpa using h1, hs⟩
      simp only [hs, if_false]
  | announce_audio_file a => exact absurd trivial hw
  | announce_text_file a f => exact absurd trivial hw
  | announce_text a f => exact absurd trivial hw

theorem render_untouched (sy : Synth) (i : Int) (cs : List Call) :
    ∀ output b : Buffer, render sy cs output = some b → (∀ c ∈ cs, ¬ writes sy i c) →
      b i = output i := by
  induction cs with
  | nil =>
    intro output b h _
    simp only [render, Option.some.injEq] at h
    rw [h]
  | cons c cs ih =>
    intro output b h hw
    simp only [render] at h
    cases hr : apply_call sy output c with
    | none => simp [hr] at h
    | some r =>
      simp only [hr] at h
      rw [ih r.2 b h (fun c' hc' => hw c' (List.mem_cons_of_mem c hc')),
        apply_call_untouched sy output c r i hr (hw c (List.mem_cons_self c cs))]

theorem guard_samprate_pos (sy : Synth) (s i : Int) (hg : in_guard sy s i) :
    0 < sy.Samprate_ms := by
  rcases hg with ⟨h1, h2⟩ | ⟨h1, h2⟩ <;> nlinarith

theorem tick_second_other (sy : Synth) (tickfreq dut1 s t i : Int) (hst : t ≠ s)
    (hg : in_guard sy s i) : ∀ c ∈ tick_second tickfreq dut1 t, ¬ writes sy i c := by
  have hpos := guard_samprate_pos sy s i hg
  have hlt : (s * 1000 - 10) * sy.Samprate_ms ≤ i ∧ i < (s * 1000 + 30) * sy.Samprate_ms := by
    rcases hg with ⟨h1, h2⟩ | ⟨h1, h2⟩ <;> constructor <;> nlinarith
  have hdis : ∀ a b : Int, (1000 * t - 10 ≤ a ∧ b ≤ 1000 * t + 105) → ¬ in_span sy a b i := by
    rintro a b ⟨ha, hb⟩ ⟨h1, h2⟩
    rcases lt_or_gt_of_ne hst with h | h
    · have : 0 ≤ (s * 1000 - 10 - b) * sy.Samprate_ms := mul_nonneg (by omega) hpos.le
      nlinarith
    · have : 0 ≤ (a - (s * 1000 + 30)) * sy.Samprate_ms := mul_nonneg (by omega) hpos.le
      nlinarith
  intro c hc
  unfold tick_second at hc
  rw [List.mem_append] at hc
  rcases hc with hc | hc
  · split_ifs at hc with hp
    · simp only [List.mem_cons, List.mem_singleton, List.not_mem_nil, or_false] at hc
      rcases hc with rfl | rfl
      · exact fun hw => hdis _ _ (by omega) hw.2
      · exact fun hw => hdis _ _ (by omega) hw.2
    · simp at hc
  · split_ifs at hc with hp
    · simp only [List.mem_singleton] at hc
      subst hc
      exact fun hw => hdis _ _ (by omega) hw.2
    · simp at hc

theorem tick_second_zero (sy : Synth) (tickfreq dut1 length s i : Int)
    (hs : is_tick_second length s) (hg : in_guard sy s i) :
    ∀ output b : Buffer, render sy (tick_second tickfreq dut1 s) output = some b → b i = 0 := by
  obtain ⟨h1, h2, h29, h58⟩ := hs
  have hpos := guard_samprate_pos sy s i hg
  intro output b h
  have heq : tick_second tickfreq dut1 s =
      Call.overlay_silence (1000 * s - 10) (1000 * s + 30) ::
        (Call.overlay_tone (1000 * s) (1000 * s + 5) tickfreq Amp.tick_amp ::
          (if (dut1 > 0 ∧ s ≥ 1 ∧ s ≤ dut1) ∨ (-dut1 > 0 ∧ s ≥ 9 ∧ s ≤ 8 - dut1) then
            [Call.overlay_tone (1000 * s + 100) (1000 * s + 105) tickfreq Amp.tick_amp]
           else [])) := by
    unfold tick_second
    rw [if_pos ⟨h29, by omega⟩]
    rfl
  rw [heq] at h
  have h' : render sy
      (Call.overlay_tone (1000 * s) (1000 * s + 5) tickfreq Amp.tick_amp ::
        (if (dut1 > 0 ∧ s ≥ 1 ∧ s ≤ dut1) ∨ (-dut1 > 0 ∧ s ≥ 9 ∧ s ≤ 8 - dut1) then
          [Call.overlay_tone (1000 * s + 100) (1000 * s + 105) tickfreq Amp.tick_amp]
         else []))
      (overlay_silence sy output (1000 * s - 10) (1000 * s + 30)).2 = some b := h
  have hin : in_span sy (1000 * s - 10) (1000 * s + 30) i := by
    unfold in_span
    rcases hg with ⟨a1, a2⟩ | ⟨a1, a2⟩ <;> constructor <;> nlinarith
  have hsil : (overlay_silence sy output (1000 * s - 10) (1000 * s + 30)).2 i = 0 := by
    simp only [overlay_silence, range_check_ok _ _ (by omega : 0 ≤ 1000 * s - 10)
      (by omega : 1000 * s - 10 < 1000 * s + 30) (by omega : 1000 * s + 30 ≤ 61000)]
    simp [hin]
  have hrest : ∀ c ∈ Call.overlay_tone (1000 * s) (1000 * s + 5) tickfreq Amp.tick_amp ::
      (if (dut1 > 0 ∧ s ≥ 1 ∧ s ≤ dut1) ∨ (-dut1 > 0 ∧ s ≥ 9 ∧ s ≤ 8 - dut1) then
        [Call.overlay_tone (1000 * s + 100) (1000 * s + 105) tickfreq Amp.tick_amp]
       else []), ¬ writes sy i c := by
    intro c hc
    rw [List.mem_cons] at hc
    rcases hc with rfl | hc
    · rintro ⟨_, b1, b2⟩
      rcases hg with ⟨a1, a2⟩ | ⟨a1, a2⟩ <;> nlinarith
    · split_ifs at hc
      · simp only [List.mem_singleton] at hc
        subst hc
        rintro ⟨_, b1, b2⟩
        rcases hg with ⟨a1, a2⟩ | ⟨a1, a2⟩ <;> nlinarith
      · simp at hc
  have hr := render_untouched sy i _ (overlay_silence sy output (1000 * s - 10) (1000 * s + 30)).2
    b h' hrest
  rw [hr, hsil]

theorem ticks_zero (sy : Synth) (tickfreq dut1 length s i : Int)
    (hs : is_tick_second length s) (hg : in_guard sy s i) (l : List Int) :
    ∀ output b : Buffer, s ∈ l → render sy (l.flatMap (tick_second tickfreq dut1)) output = some b →
      b i = 0 := by
  induction l with
  | nil => intro _ _ hmem; simp at hmem
  | cons t l ih =>
    intro output b hmem h
    rw [List.flatMap_cons, render_append] at h
    cases h1 : render sy (tick_second tickfreq dut1 t) output with
    | none => simp [h1] at h
    | some b1 =>
      simp only [h1, Option.some_bind] at h
      by_cases hl : s ∈ l
      · exact ih b1 b hl h
      · have hts : t = s := by
          rcases List.mem_cons.1 hmem with e | e
          · exact e.symm
          · exact absurd e hl
        subst hts
        have hz := tick_second_zero sy tickfreq dut1 length t i hs hg output b1 h1
        have hu := render_untouched sy i _ b1 b h (by
          intro c hc
          rw [List.mem_flatMap] at hc
          obtain ⟨u, hu, hcu⟩ := hc
          exact tick_second_other sy tickfreq dut1 t u i (fun e => hl (e ▸ hu)) hg c hcu)
        rw [hu, hz]

theorem mem_tick_second_silence (tickfreq dut1 s t : Int) :
    Call.overlay_silence (1000 * s - 10) (1000 * s + 30) ∈ tick_second tickfreq dut1 t ↔
      s = t ∧ t ≠ 29 ∧ t < 59 := by
  unfold tick_second
  rw [List.mem_append]
  constructor
  · rintro (h | h)
    · split_ifs at h with hp
      · simp only [List.mem_cons, List.mem_singleton, List.not_mem_nil, or_false,
          Call.overlay_silence.injEq] at h
        rcases h with h | h
        · exact ⟨by omega, hp⟩
        · exact absurd h (by simp)
      · simp at h
    · split_ifs at h <;> simp at h
  · rintro ⟨rfl, hp⟩
    left
    rw [if_pos hp]
    simp

theorem mem_tick_second_tick (tickfreq dut1 s t : Int) :
    Call.overlay_tone (1000 * s) (1000 * s + 5) tickfreq Amp.tick_amp ∈
        tick_second tickfreq dut1 t ↔ s = t ∧ t ≠ 29 ∧ t < 59 := by
  unfold tick_second
  rw [List.mem_append]
  constructor
  · rintro (h | h)
    · split_ifs at h with hp
      · simp only [List.mem_cons, List.mem_singleton, List.not_mem_nil, or_false,
          Call.overlay_tone.injEq] at h
        rcases h with h | h
        · exact absurd h (by simp)
        · exact ⟨by omega, hp⟩
      · simp at h
    · split_ifs at h
      · simp only [List.mem_singleton, Call.overlay_tone.injEq] at h
        omega
      · simp at h
  · rintro ⟨rfl, hp⟩
    left
    rw [if_pos hp]
    simp

theorem not_mem_gen_tone_overlay (cfg : Config) (w : World) (wwvh : Bool) (hour minute : Int)
    (c : Call) (hc : c ∈ gen_tone_or_announcement cfg w wwvh hour minute) :
    (∀ a b, c ≠ Call.overlay_silence a b) ∧ (∀ a b f amp, c ≠ Call.overlay_tone a b f amp) := by
  unfold gen_tone_or_announcement at hc
  simp only [] at hc
  split_ifs at hc <;> simp only [List.mem_singleton, List.not_mem_nil] at hc <;> subst hc <;>
    exact ⟨fun _ _ h => Call.noConfusion h, fun _ _ _ _ h => Call.noConfusion h⟩

theorem not_mem_subcarrier_overlay (code : List Nat) (s : Int) (c : Call)
    (hc : c ∈ subcarrier_second code s) :
    (∀ a b, c ≠ Call.overlay_silence a b) ∧ (∀ a b f amp, c ≠ Call.overlay_tone a b f amp) := by
  unfold subcarrier_second at hc
  split_ifs at hc <;>
    simp only [List.mem_cons, List.mem_singleton, List.not_mem_nil, or_false] at hc <;>
    rcases hc with rfl | rfl <;>
    exact ⟨fun _ _ h => Call.noConfusion h, fun _ _ _ _ h => Call.noConfusion h⟩

theorem mem_makeminute_tick (cfg : Config) (w : World) (length : Int) (wwvh : Bool)
    (code : Option (List Nat)) (dut1 hour minute : Int) (c : Call)
    (hc : (∃ s : Int, c = Call.overlay_silence (1000 * s - 10) (1000 * s + 30)) ∨
      (∃ (s : Int) (f : Int), c = Call.overlay_tone (1000 * s) (1000 * s + 5) f Amp.tick_amp)) :
    c ∈ makeminute cfg w length wwvh code dut1 hour minute ↔
      ∃ t, (1 ≤ t ∧ t < length) ∧ c ∈ tick_second (if wwvh then 1200 else 1000) dut1 t := by
  have hann : c ∉ (if (!cfg.NoVoice) = true then
      (if (!wwvh) = true then [Call.announce_text 52500 false]
       else [Call.announce_text 45000 true])
      else []) := by
    intro h
    split_ifs at h <;> simp only [List.mem_singleton, List.not_mem_nil] at h <;> subst h <;>
      rcases hc with ⟨s, e⟩ | ⟨s, f, e⟩ <;> exact Call.noConfusion e
  have hgen : c ∉ gen_tone_or_announcement cfg w wwvh hour minute := by
    intro h
    obtain ⟨n1, n2⟩ := not_mem_gen_tone_overlay cfg w wwvh hour minute c h
    rcases hc with ⟨s, e⟩ | ⟨s, f, e⟩
    · exact n1 _ _ e
    · exact n2 _ _ _ _ e
  have hsub : ∀ code : List Nat, c ∉ (loop_seconds length).flatMap (subcarrier_second code) := by
    intro code h
    rw [List.mem_flatMap] at h
    obtain ⟨t, _, ht⟩ := h
    obtain ⟨n1, n2⟩ := not_mem_subcarrier_overlay code t c ht
    rcases hc with ⟨s, e⟩ | ⟨s, f, e⟩
    · exact n1 _ _ e
    · exact n2 _ _ _ _ e
  have hbeep : ∀ f : Int, c ∉ [Call.overlay_tone 0 800 f Amp.tick_amp,
      Call.overlay_silence 800 1000] := by
    intro f h
    simp only [List.mem_cons, List.mem_singleton, List.not_mem_nil, or_false] at h
    rcases hc with ⟨s, e⟩ | ⟨s, g, e⟩ <;> subst e
    · rcases h with h | h
      · exact Call.noConfusion h
      · simp only [Call.overlay_silence.injEq] at h
        omega
    · rcases h with h | h
      · simp only [Call.overlay_tone.injEq] at h
        omega
      · exact Call.noConfusion h
  cases code <;> unfold makeminute <;>
    simp only [List.mem_append, List.mem_flatMap, mem_loop_seconds, hgen, hann, hbeep,
      false_or, or_false, List.not_mem_nil]
  have := hsub ‹List Nat›
  simp only [List.mem_flatMap, mem_loop_seconds] at this
  simp only [this, false_or, or_false]

theorem tick_samprate_pos (sy : Synth) (s i : Int) (ht : in_tick sy s i) :
    0 < sy.Samprate_ms := by
  obtain ⟨h1, h2⟩ := ht
  nlinarith

theorem tick_second_other_tick (sy : Synth) (tickfreq dut1 s t i : Int) (hst : t ≠ s)
    (ht : in_tick sy s i) : ∀ c ∈ tick_second tickfreq dut1 t, ¬ writes sy i c := by
  have hpos := tick_samprate_pos sy s i ht
  obtain ⟨t1, t2⟩ := ht
  have hdis : ∀ a b : Int, (1000 * t - 10 ≤ a ∧ b ≤ 1000 * t + 105) → ¬ in_span sy a b i := by
    rintro a b ⟨ha, hb⟩ ⟨h1, h2⟩
    rcases lt_or_gt_of_ne hst with h | h
    · have : 0 ≤ (s * 1000 - b) * sy.Samprate_ms := mul_nonneg (by omega) hpos.le
      nlinarith
    · have : 0 ≤ (a - (s * 1000 + 5)) * sy.Samprate_ms := mul_nonneg (by omega) hpos.le
      nlinarith
  intro c hc
  unfold tick_second at hc
  rw [List.mem_append] at hc
  rcases hc with hc | hc
  · split_ifs at hc with hp
    · simp only [List.mem_cons, List.mem_singleton, List.not_mem_nil, or_false] at hc
      rcases hc with rfl | rfl
      · exact fun hw => hdis _ _ (by omega) hw.2
      · exact fun hw => hdis _ _ (by omega) hw.2
    · simp at hc
  · split_ifs at hc with hp
    · simp only [List.mem_singleton] at hc
      subst hc
      exact fun hw => hdis _ _ (by omega) hw.2
    · simp at hc

theorem tick_second_value (sy : Synth) (tickfreq dut1 length s i : Int)
    (hs : is_tick_second length s) (ht : in_tick sy s i) :
    ∀ output b : Buffer, render sy (tick_second tickfreq dut1 s) output = some b →
      b i = sy.tone_sample tickfreq Amp.tick_amp (i - 1000 * s * sy.Samprate_ms) := by
  obtain ⟨h1, h2, h29, h58⟩ := hs
  have hpos := tick_samprate_pos sy s i ht
  obtain ⟨t1, t2⟩ := ht
  intro output b h
  have heq : tick_second tickfreq dut1 s =
      Call.overlay_silence (1000 * s - 10) (1000 * s + 30) ::
        (Call.overlay_tone (1000 * s) (1000 * s + 5) tickfreq Amp.tick_amp ::
          (if (dut1 > 0 ∧ s ≥ 1 ∧ s ≤ dut1) ∨ (-dut1 > 0 ∧ s ≥ 9 ∧ s ≤ 8 - dut1) then
            [Call.overlay_tone (1000 * s + 100) (1000 * s + 105) tickfreq Amp.tick_amp]
           else [])) := by
    unfold tick_second
    rw [if_pos ⟨h29, by omega⟩]
    rfl
  rw [heq] at h
  have h' : (match overlay_tone sy (overlay_silence sy output (1000 * s - 10) (1000 * s + 30)).2
        (1000 * s) (1000 * s + 5) tickfreq Amp.tick_amp with
      | some r => render sy
          (if (dut1 > 0 ∧ s ≥ 1 ∧ s ≤ dut1) ∨ (-dut1 > 0 ∧ s ≥ 9 ∧ s ≤ 8 - dut1) then
            [Call.overlay_tone (1000 * s + 100) (1000 * s + 105) tickfreq Amp.tick_amp]
           else []) r.2
      | none => none) = some b := h
  have hin : in_span sy (1000 * s) (1000 * s + 5) i := by
    unfold in_span
    constructor <;> nlinarith
  have hrc : range_check_fails (1000 * s) (1000 * s + 5) = false :=
    range_check_ok _ _ (by omega) (by omega) (by omega)
  have hrest : ∀ c ∈ (if (dut1 > 0 ∧ s ≥ 1 ∧ s ≤ dut1) ∨ (-dut1 > 0 ∧ s ≥ 9 ∧ s ≤ 8 - dut1) then
        [Call.overlay_tone (1000 * s + 100) (1000 * s + 105) tickfreq Amp.tick_amp]
       else []), ¬ writes sy i c := by
    intro c hc
    split_ifs at hc
    · simp only [List.mem_singleton] at hc
      subst hc
      rintro ⟨_, b1, b2⟩
      nlinarith
    · simp at hc
  cases hot : overlay_tone sy (overlay_silence sy output (1000 * s - 10) (1000 * s + 30)).2
      (1000 * s) (1000 * s + 5) tickfreq Amp.tick_amp with
  | none => simp [hot] at h'
  | some r =>
    simp only [hot] at h'
    have hr := render_untouched sy i _ r.2 b h' hrest
    rw [hr]
    simp only [overlay_tone, hrc, Bool.false_eq_true, if_false] at hot
    by_cases ha : (1000 * s * tickfreq).tmod 1000 ≠ 0
    · rw [if_pos ha] at hot
      exact absurd hot (by simp)
    · rw [if_neg ha] at hot
      simp only [Option.some.injEq] at hot
      rw [← hot]
      simp only [hin, if_true]

theorem ticks_value (sy : Synth) (tickfreq dut1 length s i : Int)
    (hs : is_tick_second length s) (ht : in_tick sy s i) (l : List Int) :
    ∀ output b : Buffer, s ∈ l → render sy (l.flatMap (tick_second tickfreq dut1)) output = some b →
      b i = sy.tone_sample tickfreq Amp.tick_amp (i - 1000 * s * sy.Samprate_ms) := by
  induction l with
  | nil => intro _ _ hmem; simp at hmem
  | cons t l ih =>
    intro output b hmem h
    rw [List.flatMap_cons, render_append] at h
    cases h1 : render sy (tick_second tickfreq dut1 t) output with
    | none => simp [h1] at h
    | some b1 =>
      simp only [h1, Option.some_bind] at h
      by_cases hl : s ∈ l
      · exact ih b1 b hl h
      · have hts : t = s := by
          rcases List.mem_cons.1 hmem with e | e
          · exact e.symm
          · exact absurd e hl
        subst hts
        have hz := tick_second_value sy tickfreq dut1 length t i hs ht output b1 h1
        have hu := render_untouched sy i _ b1 b h (by
          intro c hc
          rw [List.mem_flatMap] at hc
          obtain ⟨u, hu, hcu⟩ := hc
          exact tick_second_other_tick sy tickfreq dut1 t u i (fun e => hl (e ▸ hu)) ht c hcu)
        rw [hu, hz]

/-- C15: for every minute length L in {59,60,61}, `makeminute` writes the
40 ms guard silence [s*1000-10, s*1000+30) ms and the 5 ms full-scale tick at
s*1000 ms for exactly the seconds s with 1 ≤ s < L, s ≠ 29 and s ≤ 58; the
buffer is then finished without assertion failure, and for each such s every
sample of the finished buffer in [s*1000-10, s*1000) ms and in
[s*1000+5, s*1000+30) ms is zero, whatever was written there before, and the
samples in [s*1000, s*1000+5) ms are those of the tick: the tone at the
station's tick frequency and full amplitude, from its first sample. -/
theorem tick_guard_silence (sy : Synth) (cfg : Config) (w : World) (length : Int)
    (wwvh : Bool) (code : Option (List Nat)) (dut1 hour minute : Int)
    (hL : length = 59 ∨ length = 60 ∨ length = 61) :
    (∀ s : Int, Call.overlay_silence (1000 * s - 10) (1000 * s + 30) ∈
        makeminute cfg w length wwvh code dut1 hour minute ↔ is_tick_second length s) ∧
    (∀ s : Int, Call.overlay_tone (1000 * s) (1000 * s + 5) (if wwvh then 1200 else 1000)
        Amp.tick_amp ∈ makeminute cfg w length wwvh code dut1 hour minute ↔
      is_tick_second length s) ∧
    (∃ b : Buffer, finished_buffer sy cfg w length wwvh code dut1 hour minute = some b ∧
      (∀ s i : Int, is_tick_second length s → in_guard sy s i → b i = 0) ∧
      (∀ s i : Int, is_tick_second length s → in_tick sy s i →
        b i = sy.tone_sample (if wwvh then 1200 else 1000) Amp.tick_amp
          (i - 1000 * s * sy.Samprate_ms))) := by
  refine ⟨?_, ?_, ?_⟩
  · intro s
    rw [mem_makeminute_tick cfg w length wwvh code dut1 hour minute _ (Or.inl ⟨s, rfl⟩)]
    simp only [mem_tick_second_silence, is_tick_second]
    constructor
    · rintro ⟨t, ⟨h1, h2⟩, rfl, h3, h4⟩
      exact ⟨h1, h2, h3, by omega⟩
    · rintro ⟨h1, h2, h3, h4⟩
      exact ⟨s, ⟨h1, h2⟩, rfl, h3, by omega⟩
  · intro s
    rw [mem_makeminute_tick cfg w length wwvh code dut1 hour minute _ (Or.inr ⟨s, _, rfl⟩)]
    simp only [mem_tick_second_tick, is_tick_second]
    constructor
    · rintro ⟨t, ⟨h1, h2⟩, rfl, h3, h4⟩
      exact ⟨h1, h2, h3, by omega⟩
    · rintro ⟨h1, h2, h3, h4⟩
      exact ⟨s, ⟨h1, h2⟩, rfl, h3, by omega⟩
  · obtain ⟨b, hb⟩ := render_total sy length _
      (makeminute_checks cfg w length wwvh code dut1 hour minute hL) (fun _ => 0)
    have hsplit : ∃ pre, makeminute cfg w length wwvh code dut1 hour minute =
        pre ++ (loop_seconds length).flatMap (tick_second (if wwvh then 1200 else 1000) dut1) :=
      ⟨_, rfl⟩
    obtain ⟨pre, hpre⟩ := hsplit
    have hb' := hb
    rw [hpre, render_append] at hb'
    cases h0 : render sy pre (fun _ => 0) with
    | none => simp [h0] at hb'
    | some b0 =>
      simp only [h0, Option.some_bind] at hb'
      refine ⟨b, hb, ?_, ?_⟩
      · intro s i hs hg
        exact ticks_zero sy _ dut1 length s i hs hg (loop_seconds length) b0 b
          ((mem_loop_seconds length s).2 ⟨hs.1, hs.2.1⟩) hb'
      · intro s i hs ht
        exact ticks_value sy _ dut1 length s i hs ht (loop_seconds length) b0 b
          ((mem_loop_seconds length s).2 ⟨hs.1, hs.2.1⟩) hb'

/-- Witness for C15: the WWV minute 12:34 of 15 June 2024 at 48 samples per
millisecond, around second 5.  The 500 Hz tone of the minute is in the buffer
at 4989 ms and, with the subcarrier, at 5030 ms; between them the samples at
4995 ms and 5010 ms are zero and the fourth sample of the tick at 5000 ms is
the fourth sample of the 1000 Hz tone. -/
theorem tick_guard_silence_witness :
    (∃ b : Buffer, finished_buffer example_synth example_config example_world 60 false
        (some (maketimecode 2 false 2024 6 15 12 34)) 2 12 34 = some b ∧
      b (48 * 4995) = 0 ∧ b (48 * 5010) = 0 ∧ b (48 * 5000 + 3) = 1003) ∧
    (finished_buffer example_synth example_config example_world 60 false
        (some (maketimecode 2 false 2024 6 15 12 34)) 2 12 34).map
      (fun b => (b (48 * 4989), b (48 * 5030))) = some (500, 600) :=
  ⟨(tick_guard_silence example_synth example_config example_world 60 false
      (some (maketimecode 2 false 2024 6 15 12 34)) 2 12 34 (by decide)).2.2.elim
      (fun b hb => ⟨b, hb.1, hb.2.1 5 (48 * 4995) (by decide) (by decide),
        hb.2.1 5 (48 * 5010) (by decide) (by decide),
        hb.2.2 5 (48 * 5000 + 3) (by decide) (by decide)⟩),
   by decide⟩

end Wwvsim
